import Mathlib

/-!
Verification development for the go-messagebox-server permission & fee
resolution engine and message fan-out protocol.

The SQLite-backed tables of `internal/db` are modelled as lists of rows
inside a `DB` structure; each query of `internal/db/queries.go` becomes a
pure function on that state.  The HTTP handlers (`SendMessage`,
`AcknowledgeMessage`, `GetQuote`, `ListDevices`) become functions from a
decoded request plus a `DB` to a response plus a `DB`.  External
collaborators (authentication, public-key format validation) are passed in
as parameters: the authenticated sender key as a string, key validation as
a `String → Bool` predicate.
-/

/-! ### resolveFeesP lemmas -/

/-! ### Claim theorems -/

/-- Go's `strings.TrimSpace` on the character level: drop whitespace from
both ends. -/
def trimChars (l : List Char) : List Char :=
  ((l.dropWhile Char.isWhitespace).reverse.dropWhile Char.isWhitespace).reverse

/-- `strings.TrimSpace`, modelled structurally so that it evaluates in the
kernel. -/
def trimSpace (s : String) : String :=
  ⟨trimChars s.data⟩

/-- A row of the `messageBox` table (`UNIQUE(type, identityKey)`,
`messageBoxId INTEGER PRIMARY KEY AUTOINCREMENT`). -/
structure BoxRow where
  messageBoxId : Int
  identityKey : String
  boxType : String
deriving DecidableEq, Repr

/-- A row of the `messages` table.  The schema declares
`messageId TEXT NOT NULL UNIQUE` — globally unique, not per recipient. -/
structure MsgRow where
  messageId : String
  messageBoxId : Int
  sender : String
  recipient : String
  body : String
deriving DecidableEq, Repr

/-- A row of the `message_permissions` table
(`UNIQUE(recipient, sender, message_box)`, `sender` nullable). -/
structure PermRow where
  recipient : String
  sender : Option String
  messageBox : String
  recipientFee : Int
deriving DecidableEq, Repr

/-- A row of the `device_registrations` table (`fcm_token TEXT UNIQUE`). -/
structure DeviceRow where
  id : Int
  identityKey : String
  fcmToken : String
  deviceId : Option String
  platform : Option String
  active : Bool
deriving DecidableEq, Repr

/-- The durable state: one list per table, plus the autoincrement counter
for `messageBox`.  `serverFees` models the `server_fees` table as
(message_box, delivery_fee) pairs. -/
structure DB where
  boxes : List BoxRow
  nextBoxId : Int
  messages : List MsgRow
  permissions : List PermRow
  serverFees : List (String × Int)
  devices : List DeviceRow
deriving DecidableEq, Repr

def DB.empty : DB :=
  ⟨[], 1, [], [], [], []⟩

/-- The `server_fees` rows seeded by `Migrate`. -/
def seededServerFees : List (String × Int) :=
  [("notifications", 10), ("inbox", 0), ("payment_inbox", 0)]

/-- `EnsureMessageBox`: `INSERT OR IGNORE` under `UNIQUE(type, identityKey)`,
then `SELECT messageBoxId`. -/
def EnsureMessageBox (identityKey boxType : String) (d : DB) : Int × DB :=
  let d' :=
    if d.boxes.any (fun b => b.identityKey == identityKey && b.boxType == boxType) then d
    else { d with
            boxes := d.boxes ++ [⟨d.nextBoxId, identityKey, boxType⟩],
            nextBoxId := d.nextBoxId + 1 }
  match d'.boxes.find? (fun b => b.identityKey == identityKey && b.boxType == boxType) with
  | some b => (b.messageBoxId, d')
  | none => (0, d')

/-- `GetMessageBoxID`: plain lookup, `0` when no row exists. -/
def GetMessageBoxID (identityKey boxType : String) (d : DB) : Int :=
  match d.boxes.find? (fun b => b.identityKey == identityKey && b.boxType == boxType) with
  | some b => b.messageBoxId
  | none => 0

/-- `InsertMessage`: `INSERT OR IGNORE` under the global `UNIQUE(messageId)`
constraint — a duplicate message id (for any recipient) is a silent no-op. -/
def InsertMessage (messageID : String) (messageBoxID : Int) (sender recipient body : String)
    (d : DB) : DB :=
  if d.messages.any (fun m => m.messageId == messageID) then d
  else { d with messages := d.messages ++ [⟨messageID, messageBoxID, sender, recipient, body⟩] }

/-- `AcknowledgeMessages`: `DELETE FROM messages WHERE recipient = ? AND
messageId IN (...)`; returns the number of rows deleted. -/
def AcknowledgeMessages (recipient : String) (messageIDs : List String) (d : DB) : Nat × DB :=
  if messageIDs.length == 0 then (0, d)
  else
    ((d.messages.filter (fun m => m.recipient == recipient && messageIDs.contains m.messageId)).length,
     { d with messages :=
        d.messages.filter (fun m => !(m.recipient == recipient && messageIDs.contains m.messageId)) })

/-- `GetServerDeliveryFee`: lookup in `server_fees`, `0` on no row. -/
def GetServerDeliveryFee (messageBox : String) (d : DB) : Int :=
  match d.serverFees.find? (fun p => p.1 == messageBox) with
  | some p => p.2
  | none => 0

/-- `smartDefaultFee`: `10` for the `notifications` box, else `0`. -/
def smartDefaultFee (messageBox : String) : Int :=
  if messageBox == "notifications" then 10 else 0

/-- The row predicate of the permission queries: exact match on recipient,
sender slot (`NULL` being its own key) and box type. -/
def permMatches (recipient : String) (sender : Option String) (messageBox : String)
    (p : PermRow) : Bool :=
  p.recipient == recipient && p.sender == sender && p.messageBox == messageBox

/-- `SELECT ... FROM message_permissions WHERE` exact key match. -/
def findPerm (ps : List PermRow) (recipient : String) (sender : Option String)
    (messageBox : String) : Option PermRow :=
  ps.find? (permMatches recipient sender messageBox)

/-- `GetRecipientFee` on the permission table: sender-specific row first
(skipped for an empty sender string), then the box-wide `NULL`-sender row,
else insert the smart default as a new box-wide row and return it. -/
def getRecipientFeeP (recipient sender messageBox : String) (ps : List PermRow) :
    Int × List PermRow :=
  let senderHit := if sender == "" then none else findPerm ps recipient (some sender) messageBox
  match senderHit with
  | some p => (p.recipientFee, ps)
  | none =>
    match findPerm ps recipient none messageBox with
    | some p => (p.recipientFee, ps)
    | none =>
      let defaultFee := smartDefaultFee messageBox
      (defaultFee, ps ++ [⟨recipient, none, messageBox, defaultFee⟩])

/-- `GetRecipientFee` lifted to the full state (it reads and writes only
`message_permissions`). -/
def GetRecipientFee (recipient sender messageBox : String) (d : DB) : Int × DB :=
  ((getRecipientFeeP recipient sender messageBox d.permissions).1,
   { d with permissions := (getRecipientFeeP recipient sender messageBox d.permissions).2 })

/-- `SetMessagePermission` on the permission table.  For an absent sender the
code issues an `UPDATE` and, when no row was affected, a plain `INSERT`
(SQLite's `UNIQUE` never fires on two `NULL` senders); for a present sender
an `INSERT ... ON CONFLICT(recipient, sender, message_box) DO UPDATE`. -/
def setMessagePermissionP (recipient : String) (sender : Option String) (messageBox : String)
    (recipientFee : Int) (ps : List PermRow) : List PermRow :=
  if ps.any (permMatches recipient sender messageBox) then
    ps.map (fun p => if permMatches recipient sender messageBox p then
      { p with recipientFee := recipientFee } else p)
  else ps ++ [⟨recipient, sender, messageBox, recipientFee⟩]

/-- `SetMessagePermission` lifted to the full state. -/
def SetMessagePermission (recipient : String) (sender : Option String) (messageBox : String)
    (recipientFee : Int) (d : DB) : DB :=
  { d with permissions := setMessagePermissionP recipient sender messageBox recipientFee d.permissions }

/-- The token masking of the `ListDevices` handler: tokens longer than 10
characters are replaced by `"..."` followed by their last 10 characters
(`"..." + token[len(token)-10:]`); shorter tokens pass through. -/
def maskFCMToken (token : String) : String :=
  if token.length > 10 then "..." ++ ⟨token.data.drop (token.length - 10)⟩ else token

/-- One entry of the `GET /devices` response (the fields the claims are
about; timestamps are omitted from the model). -/
structure DeviceOut where
  id : Int
  deviceId : Option String
  platform : Option String
  fcmToken : String
  active : Bool
deriving DecidableEq, Repr

/-- The `ListDevices` handler's device list: the caller's registrations with
the push token masked.  (The SQL `ORDER BY updated_at DESC` is not modelled;
order is irrelevant to the claims.) -/
def ListDevices (identityKey : String) (d : DB) : List DeviceOut :=
  (d.devices.filter (fun dev => dev.identityKey == identityKey)).map
    (fun dev => ⟨dev.id, dev.deviceId, dev.platform, maskFCMToken dev.fcmToken, dev.active⟩)

/-- The shapes a `json.RawMessage` field can take relative to the two
`json.Unmarshal` attempts the handler makes: absent (zero-length), the JSON
literal `null`, a single JSON string, an array of strings, or anything
else (which fails both unmarshal attempts). -/
inductive RawField where
  | absent
  | nullLit
  | str (s : String)
  | arr (xs : List String)
  | malformed
deriving DecidableEq, Repr

/-- The handler's `len(raw) == 0 || string(raw) == "null"` test. -/
def RawField.isEmptyOrNull : RawField → Bool
  | .absent => true
  | .nullLit => true
  | _ => false

/-- `json.Unmarshal` into `[]string`, falling back to a single string:
an array yields itself, a string yields a singleton, the literal `null`
unmarshals into a nil slice, anything else errors. -/
def unmarshalStrings : RawField → Option (List String)
  | .arr xs => some xs
  | .str s => some [s]
  | .nullLit => some []
  | .absent => none
  | .malformed => none

/-- The decoded `message` object of a `/sendMessage` request.
`messageBox` is a JSON string field; `body` and `payment` are kept as raw
JSON text. -/
structure SendMessageBody where
  recipient : RawField
  recipients : RawField
  messageBox : String
  messageId : RawField
  body : String
deriving DecidableEq, Repr

/-- A decoded `/sendMessage` request: optional `message` object and raw
`payment` payload (`""` when absent). -/
structure SendMessageRequest where
  message : Option SendMessageBody
  payment : String
deriving DecidableEq, Repr

/-- `len(msg.Body) == 0 || string(msg.Body) == "\"\"" || string(msg.Body) == "null"`. -/
def bodyInvalid (body : String) : Bool :=
  body == "" || body == "\"\"" || body == "null"

/-- `len(req.Payment) == 0 || string(req.Payment) == "null"`. -/
def paymentMissing (payment : String) : Bool :=
  payment == "" || payment == "null"

/-- The data that survives `/sendMessage` validation. -/
structure ValidatedSend where
  msg : SendMessageBody
  recipients : List String
  messageIDs : List String
deriving DecidableEq, Repr

/-- The validation half of the `SendMessage` handler (auth check through
recipient-key check), in the code's order, each failure terminal. -/
def validateSend (validKey : String → Bool) (senderKey : String) (req : SendMessageRequest) :
    Except (Nat × String) ValidatedSend :=
  if senderKey == "" then .error (401, "ERR_AUTH_REQUIRED")
  else match req.message with
  | none => .error (400, "ERR_MESSAGE_REQUIRED")
  | some msg =>
    if trimSpace msg.messageBox == "" then .error (400, "ERR_INVALID_MESSAGEBOX")
    else if bodyInvalid msg.body then .error (400, "ERR_INVALID_MESSAGE_BODY")
    else
      let recipientsRaw := if msg.recipients.isEmptyOrNull then msg.recipient else msg.recipients
      if recipientsRaw.isEmptyOrNull then .error (400, "ERR_RECIPIENT_REQUIRED")
      else match unmarshalStrings recipientsRaw with
      | none => .error (400, "ERR_INVALID_RECIPIENT_KEY")
      | some recipients =>
        match unmarshalStrings msg.messageId with
        | none => .error (400, "ERR_MESSAGEID_REQUIRED")
        | some messageIDs =>
          if recipients.length > 1 && messageIDs.length == 1 then
            .error (400, "ERR_MESSAGEID_COUNT_MISMATCH")
          else if messageIDs.length != recipients.length then
            .error (400, "ERR_MESSAGEID_COUNT_MISMATCH")
          else if messageIDs.any (fun id => trimSpace id == "") then
            .error (400, "ERR_INVALID_MESSAGEID")
          else if recipients.any (fun r => !validKey (trimSpace r)) then
            .error (400, "ERR_INVALID_RECIPIENT_KEY")
          else .ok ⟨msg, recipients, messageIDs⟩

/-- One entry of the handler's internal `feeRows` slice. -/
structure FeeRow where
  recipient : String
  recipientFee : Int
  allowed : Bool
deriving DecidableEq, Repr

/-- The fee-evaluation loop of `SendMessage`: each recipient is trimmed and
resolved through `GetRecipientFee` in order, threading the permission
table. -/
def resolveFeesP (senderKey boxType : String) :
    List String → List PermRow → List FeeRow × List PermRow
  | [], ps => ([], ps)
  | recip :: rest, ps =>
    let recipT := trimSpace recip
    let r := getRecipientFeeP recipT senderKey boxType ps
    let rec' := resolveFeesP senderKey boxType rest r.2
    (⟨recipT, r.1, r.1 != -1⟩ :: rec'.1, rec'.2)

/-- The box-provisioning loop of `SendMessage`. -/
def ensureBoxes (boxType : String) : List String → DB → DB
  | [], d => d
  | recip :: rest, d => ensureBoxes boxType rest (EnsureMessageBox (trimSpace recip) boxType d).2

/-- The stored envelope: `json.Marshal` of a map holding the raw body under
`"message"` and, when payment travels with a payable delivery, the raw
payment under `"payment"` (Go marshals map keys sorted). -/
def storedBody (bodyRaw payment : String) (requiresPayment : Bool) : String :=
  if requiresPayment && !paymentMissing payment then
    "\x7b\"message\":" ++ bodyRaw ++ ",\"payment\":" ++ payment ++ "\x7d"
  else
    "\x7b\"message\":" ++ bodyRaw ++ "\x7d"

/-- The message-store loop of `SendMessage`: for each (feeRow, messageId)
pair look up the recipient's box id and insert the envelope, collecting the
(recipient, messageId) result pairs.  (The Go loop re-marshals the same
envelope on every iteration; the identical string is hoisted here.) -/
def storeLoop (senderKey boxType bodyStr : String) :
    List (FeeRow × String) → DB → List (String × String) × DB
  | [], d => ([], d)
  | (fr, msgID) :: rest, d =>
    let mbID := GetMessageBoxID fr.recipient boxType d
    let d' := InsertMessage msgID mbID senderKey fr.recipient bodyStr d
    let r := storeLoop senderKey boxType bodyStr rest d'
    ((fr.recipient, msgID) :: r.1, r.2)

/-- A `/sendMessage` response: an error with HTTP status and code, the 403
blocked-delivery refusal carrying the blocked recipients, or success with
the delivered (recipient, messageId) pairs. -/
inductive SendResp where
  | failure (status : Nat) (code : String)
  | blocked (blockedRecipients : List String)
  | success (results : List (String × String))
deriving DecidableEq, Repr

/-- The admission and fan-out half of `SendMessage` (everything after
validation): provision boxes, read the server surcharge, resolve every
recipient's fee, refuse if any is blocked, gate on payment presence, then
store one message per recipient. -/
def sendMessageCore (senderKey : String) (msg : SendMessageBody) (payment : String)
    (recipients messageIDs : List String) (d : DB) : SendResp × DB :=
  let boxType := trimSpace msg.messageBox
  let d1 := ensureBoxes boxType recipients d
  let deliveryFee := GetServerDeliveryFee boxType d1
  let fr := resolveFeesP senderKey boxType recipients d1.permissions
  let feeRows := fr.1
  let d2 := { d1 with permissions := fr.2 }
  let blockedL := (feeRows.filter (fun row => !row.allowed)).map FeeRow.recipient
  if blockedL.length > 0 then (.blocked blockedL, d2)
  else
    let anyRecipientFee := feeRows.any (fun row => decide (0 < row.recipientFee))
    let requiresPayment := decide (0 < deliveryFee) || anyRecipientFee
    if requiresPayment && paymentMissing payment then
      (.failure 400 "ERR_MISSING_PAYMENT_TX", d2)
    else
      let bodyStr := storedBody msg.body payment requiresPayment
      let res := storeLoop senderKey boxType bodyStr (feeRows.zip messageIDs) d2
      (.success res.1, res.2)

/-- The `SendMessage` handler: validation then admission/fan-out. -/
def SendMessage (validKey : String → Bool) (senderKey : String) (req : SendMessageRequest)
    (d : DB) : SendResp × DB :=
  match validateSend validKey senderKey req with
  | .error e => (.failure e.1 e.2, d)
  | .ok v => sendMessageCore senderKey v.msg req.payment v.recipients v.messageIDs d

/-- An `/acknowledgeMessage` response. -/
inductive AckResp where
  | failure (status : Nat) (code : String)
  | success
deriving DecidableEq, Repr

/-- The `AcknowledgeMessage` handler: auth, non-empty id list, delete, and a
"not found" failure when zero rows were removed. -/
def AcknowledgeMessage (identityKey : String) (messageIds : List String) (d : DB) :
    AckResp × DB :=
  if identityKey == "" then (.failure 401 "ERR_AUTH_REQUIRED", d)
  else if messageIds.length == 0 then (.failure 400 "ERR_MESSAGE_ID_REQUIRED", d)
  else
    let r := AcknowledgeMessages identityKey messageIds d
    if r.1 == 0 then (.failure 400 "ERR_INVALID_ACKNOWLEDGMENT", r.2)
    else (.success, r.2)

/-- `rf == -1 → blocked`, `rf > 0 → payment_required`, else `always_allow`
(the status derivation of the quote handler). -/
def feeStatus (rf : Int) : String :=
  if rf == -1 then "blocked" else if rf > 0 then "payment_required" else "always_allow"

/-- One entry of the multi-recipient quote response. -/
structure QuoteEntry where
  recipient : String
  messageBox : String
  deliveryFee : Int
  recipientFee : Int
  status : String
deriving DecidableEq, Repr

/-- The accumulated outputs of the quote loop. -/
structure QuoteLoopOut where
  quotes : List QuoteEntry
  blockedRecipients : List String
  totalRecipientFees : Int
  totalDeliveryFees : Int
  perms : List PermRow
deriving DecidableEq, Repr

/-- The per-recipient loop of `GetQuote`: resolve each fee in order, derive
its status, collect blocked recipients, add positive fees into
`totalRecipientFees` and the server fee once per recipient into
`totalDeliveryFees`. -/
def quoteLoopP (senderKey messageBox : String) (deliveryFee : Int) :
    List String → List PermRow → QuoteLoopOut
  | [], ps => ⟨[], [], 0, 0, ps⟩
  | rec :: rest, ps =>
    let r := getRecipientFeeP rec senderKey messageBox ps
    let rf := r.1
    let out := quoteLoopP senderKey messageBox deliveryFee rest r.2
    ⟨⟨rec, messageBox, deliveryFee, rf, feeStatus rf⟩ :: out.quotes,
     (if rf == -1 then rec :: out.blockedRecipients else out.blockedRecipients),
     (if rf > 0 then rf + out.totalRecipientFees else out.totalRecipientFees),
     deliveryFee + out.totalDeliveryFees,
     out.perms⟩

/-- A `/permissions/quote` response: error, single-recipient legacy shape,
or the multi-recipient aggregate shape. -/
inductive QuoteResp where
  | failure (status : Nat) (code : String)
  | single (deliveryFee recipientFee : Int)
  | multi (quotesByRecipient : List QuoteEntry) (deliveryFees recipientFees : Int)
      (totalForPayableRecipients : Int) (blockedRecipients : List String)
deriving DecidableEq, Repr

/-- The `GetQuote` handler. -/
def GetQuote (validKey : String → Bool) (senderKey messageBox : String)
    (recipients : List String) (d : DB) : QuoteResp × DB :=
  if senderKey == "" then (.failure 401 "ERR_AUTHENTICATION_REQUIRED", d)
  else if messageBox == "" then (.failure 400 "ERR_MISSING_PARAMETERS", d)
  else if recipients.length == 0 then (.failure 400 "ERR_MISSING_PARAMETERS", d)
  else if recipients.any (fun rec => !validKey (trimSpace rec)) then
    (.failure 400 "ERR_INVALID_PUBLIC_KEY", d)
  else
    let deliveryFee := GetServerDeliveryFee messageBox d
    if recipients.length == 1 then
      let r := getRecipientFeeP (recipients.headD "") senderKey messageBox d.permissions
      (.single deliveryFee r.1, { d with permissions := r.2 })
    else
      let q := quoteLoopP senderKey messageBox deliveryFee recipients d.permissions
      (.multi q.quotes q.totalDeliveryFees q.totalRecipientFees
        (q.totalDeliveryFees + q.totalRecipientFees) q.blockedRecipients,
       { d with permissions := q.perms })

/-- Is a message with this id present (any recipient)? -/
def hasMsgId (d : DB) (mid : String) : Bool :=
  d.messages.any (fun m => m.messageId == mid)

/-- How many stored messages carry a given id. -/
def countMsgId (d : DB) (mid : String) : Nat :=
  d.messages.countP (fun m => m.messageId == mid)

def dC1 : DB :=
  { DB.empty with permissions := [⟨"r", some "snd", "inbox", 7⟩] }

def dC6 : DB :=
  { DB.empty with messages :=
      [⟨"m1", 1, "snd", "alice", "b1"⟩, ⟨"m2", 1, "snd", "bob", "b2"⟩] }

/-- Two permission rows collide on the `(recipient, sender, message_box)`
uniqueness key. -/
def sameKey (p q : PermRow) : Bool :=
  p.recipient == q.recipient && p.sender == q.sender && p.messageBox == q.messageBox

/-- The ledger invariant: no two rows share a key (with the absent sender
its own distinct key). -/
def noDupKeysB : List PermRow → Bool
  | [] => true
  | p :: rest => !(rest.any (fun q => sameKey p q)) && noDupKeysB rest

/-- How many rows carry a given key. -/
def countKey (ps : List PermRow) (r : String) (s : Option String) (b : String) : Nat :=
  ps.countP (permMatches r s b)

def dC9 : DB :=
  { DB.empty with devices := [⟨1, "id1", "0123456789", none, none, true⟩] }

def dC9b : DB :=
  { DB.empty with devices := [⟨2, "id2", "tok-0123456789abcd", none, none, true⟩] }

def reqC5 : SendMessageRequest :=
  ⟨some ⟨.absent, .arr ["alice"], "", .arr ["m1"], ""⟩, ""⟩

/-- The fee rows `SendMessage` computes for a request that passed
validation. -/
def sendFeeRows (senderKey : String) (msg : SendMessageBody) (recipients : List String)
    (d : DB) : List FeeRow :=
  (resolveFeesP senderKey (trimSpace msg.messageBox) recipients
    (ensureBoxes (trimSpace msg.messageBox) recipients d).permissions).1

/-- The server delivery surcharge `SendMessage` reads for the request's
box type. -/
def sendDeliveryFee (msg : SendMessageBody) (recipients : List String) (d : DB) : Int :=
  GetServerDeliveryFee (trimSpace msg.messageBox)
    (ensureBoxes (trimSpace msg.messageBox) recipients d)

/-- The handler's payment gate: the surcharge is positive or some
recipient's resolved fee is positive. -/
def sendRequiresPayment (senderKey : String) (msg : SendMessageBody)
    (recipients : List String) (d : DB) : Bool :=
  decide (0 < sendDeliveryFee msg recipients d) ||
    (sendFeeRows senderKey msg recipients d).any (fun row => decide (0 < row.recipientFee))

def dC2 : DB :=
  { DB.empty with permissions := [⟨"alice", none, "inbox", -1⟩] }

def reqC2 : SendMessageRequest :=
  ⟨some ⟨.absent, .arr ["alice", "bob"], "inbox", .arr ["m1", "m2"], "\"hi\""⟩, ""⟩

def dC3 : DB :=
  { DB.empty with serverFees := [("inbox", 2)] }

def msgC3 : SendMessageBody :=
  ⟨.absent, .arr ["alice"], "inbox", .arr ["m1"], "\"hi\""⟩

def reqC3 : SendMessageRequest :=
  ⟨some msgC3, ""⟩

/-- Sum of the positive entries of a fee list. -/
def sumPositive (l : List Int) : Int :=
  (l.filter (fun x => decide (0 < x))).sum

/-- The quote output computed by `GetQuote` for a multi-recipient request. -/
def quoteOut (senderKey messageBox : String) (recipients : List String) (d : DB) :
    QuoteLoopOut :=
  quoteLoopP senderKey messageBox (GetServerDeliveryFee messageBox d) recipients d.permissions

def dC8 : DB :=
  { DB.empty with permissions :=
      [⟨"X", some "snd", "bx", -1⟩, ⟨"Y", some "snd", "bx", 5⟩] }

def dC8w : DB :=
  { DB.empty with
      permissions := [⟨"X", some "snd", "bx", 5⟩, ⟨"Y", some "snd", "bx", 0⟩],
      serverFees := [("bx", 3)] }

/-- The state after box provisioning and fee resolution (boxes ensured,
permission table extended by any auto-provisioned defaults). -/
def sendMidDB (senderKey : String) (msg : SendMessageBody) (recipients : List String)
    (d : DB) : DB :=
  { ensureBoxes (trimSpace msg.messageBox) recipients d with
     permissions := (resolveFeesP senderKey (trimSpace msg.messageBox) recipients
       (ensureBoxes (trimSpace msg.messageBox) recipients d).permissions).2 }

/-- The blocked recipients a validated send computes. -/
def sendBlockedList (senderKey : String) (msg : SendMessageBody) (recipients : List String)
    (d : DB) : List String :=
  ((sendFeeRows senderKey msg recipients d).filter (fun row => !row.allowed)).map
    FeeRow.recipient

/-- The store loop a validated, admitted send runs. -/
def sendStoreLoop (senderKey : String) (msg : SendMessageBody) (payment : String)
    (recipients messageIDs : List String) (d : DB) : List (String × String) × DB :=
  storeLoop senderKey (trimSpace msg.messageBox)
    (storedBody msg.body payment (sendRequiresPayment senderKey msg recipients d))
    ((sendFeeRows senderKey msg recipients d).zip messageIDs)
    (sendMidDB senderKey msg recipients d)

def dC10 : DB :=
  { DB.empty with messages := [⟨"m1", 1, "s0", "other", "body0"⟩] }

def reqC10 : SendMessageRequest :=
  ⟨some ⟨.str "rcpt", .absent, "inbox", .str "m1", "\"hi\""⟩, ""⟩

def reqC4 : SendMessageRequest :=
  ⟨some ⟨.str "alice", .absent, "inbox", .str "m1", "\"hello\""⟩, ""⟩

/-! ### Generic helper lemmas -/

theorem find?_append_some {α : Type} {p : α → Bool} {l₁ : List α} {x : α} (l₂ : List α)
    (h : l₁.find? p = some x) : (l₁ ++ l₂).find? p = some x := by
  rw [List.find?_append, h]; rfl

theorem find?_append_none {α : Type} {p : α → Bool} {l₁ : List α} (l₂ : List α)
    (h : l₁.find? p = none) : (l₁ ++ l₂).find? p = l₂.find? p := by
  rw [List.find?_append, h]; rfl

theorem ne_append_singleton {α : Type} (l : List α) (x : α) : l ≠ l ++ [x] := by
  intro h
  have := congrArg List.length h
  simp at this

/-! ### findPerm and getRecipientFeeP lemmas -/

theorem findPerm_append_some {ps : List PermRow} {r : String} {s : Option String} {b : String}
    {p : PermRow} (qs : List PermRow) (h : findPerm ps r s b = some p) :
    findPerm (ps ++ qs) r s b = some p :=
  find?_append_some qs h

theorem findPerm_append_none {ps : List PermRow} {r : String} {s : Option String} {b : String}
    (qs : List PermRow) (h : findPerm ps r s b = none) :
    findPerm (ps ++ qs) r s b = findPerm qs r s b :=
  find?_append_none qs h

theorem findPerm_defaultRow_senderSpecific (r b r' b' s' : String) (fee : Int) :
    findPerm [⟨r, none, b, fee⟩] r' (some s') b' = none := by
  simp [findPerm, permMatches, List.find?]

theorem findPerm_defaultRow_self (r b : String) (fee : Int) :
    findPerm [⟨r, none, b, fee⟩] r none b = some ⟨r, none, b, fee⟩ := by
  simp [findPerm, permMatches, List.find?]

/-- Case analysis on a fee resolution: either the permission table is
untouched (a row was found), or the smart default was appended as a new
box-wide row after both lookups missed. -/
theorem getRecipientFeeP_state (r s b : String) (ps : List PermRow) :
    (getRecipientFeeP r s b ps).2 = ps ∨
    ((getRecipientFeeP r s b ps).2 = ps ++ [⟨r, none, b, smartDefaultFee b⟩] ∧
     (getRecipientFeeP r s b ps).1 = smartDefaultFee b ∧
     findPerm ps r none b = none ∧
     (s = "" ∨ findPerm ps r (some s) b = none)) := by
  unfold getRecipientFeeP
  cases hs : (s == "") with
  | true =>
    cases hn : findPerm ps r none b with
    | some p => simp [hs, hn]
    | none => simp [hs, hn, beq_iff_eq.mp hs]
  | false =>
    cases hss : findPerm ps r (some s) b with
    | some p => simp [hs, hss]
    | none =>
      cases hn : findPerm ps r none b with
      | some p => simp [hs, hss, hn]
      | none => simp [hs, hss, hn]

/-- A resolution that left the table unchanged found a row, so it resolves
identically after a box-wide default row is appended (appending such a row
is the only write a resolution can make). -/
theorem getRecipientFeeP_stable_append (r s b r' b' : String) (fee : Int)
    {ps : List PermRow} {f : Int}
    (h : getRecipientFeeP r s b ps = (f, ps)) :
    getRecipientFeeP r s b (ps ++ [⟨r', none, b', fee⟩]) =
      (f, ps ++ [⟨r', none, b', fee⟩]) := by
  unfold getRecipientFeeP at *
  cases hs : (s == "") with
  | true =>
    cases hn : findPerm ps r none b with
    | some p =>
      simp [hs, hn] at h
      simp [hs, findPerm_append_some _ hn, h]
    | none =>
      simp [hs, hn] at h
  | false =>
    cases hss : findPerm ps r (some s) b with
    | some p =>
      simp [hs, hss] at h
      simp [hs, findPerm_append_some _ hss, h]
    | none =>
      cases hn : findPerm ps r none b with
      | some p =>
        simp [hs, hss, hn] at h
        simp [hs, findPerm_append_none _ hss, findPerm_append_some _ hn,
          findPerm_defaultRow_senderSpecific, h]
      | none =>
        simp [hs, hss, hn] at h

/-- Resolving the same key again right after a resolution returns the same
fee and leaves the table unchanged (the auto-provisioned default row is
served by the box-wide lookup). -/
theorem getRecipientFeeP_self_stable (r s b : String) {ps ps' : List PermRow} {f : Int}
    (h : getRecipientFeeP r s b ps = (f, ps')) :
    getRecipientFeeP r s b ps' = (f, ps') := by
  rcases getRecipientFeeP_state r s b ps with hst | ⟨hst, hf, hn, hsd⟩
  · have hps : ps' = ps := by rw [h] at hst; exact hst
    subst hps; exact h
  · have hps : ps' = ps ++ [⟨r, none, b, smartDefaultFee b⟩] := by rw [h] at hst; exact hst
    have hff : f = smartDefaultFee b := by rw [h] at hf; exact hf
    subst hps
    unfold getRecipientFeeP
    cases hs : (s == "") with
    | true => simp [hs, findPerm_append_none _ hn, findPerm_defaultRow_self, hff]
    | false =>
      have hss : findPerm ps r (some s) b = none := by
        rcases hsd with h1 | h1
        · subst h1; simp at hs
        · exact h1
      simp [hs, findPerm_append_none _ hss, findPerm_defaultRow_senderSpecific,
        findPerm_append_none _ hn, findPerm_defaultRow_self, hff]

/-- A key whose resolution is a pure read stays a pure read with the same
fee after any other key is resolved. -/
theorem getRecipientFeeP_preserve_stable (r0 r s b : String) {ps ps' : List PermRow}
    {f0 f : Int}
    (h0 : getRecipientFeeP r0 s b ps = (f0, ps))
    (h : getRecipientFeeP r s b ps = (f, ps')) :
    getRecipientFeeP r0 s b ps' = (f0, ps') := by
  rcases getRecipientFeeP_state r s b ps with hst | ⟨hst, -, -, -⟩
  · have hps : ps' = ps := by rw [h] at hst; exact hst
    subst hps; exact h0
  · have hps : ps' = ps ++ [⟨r, none, b, smartDefaultFee b⟩] := by rw [h] at hst; exact hst
    subst hps
    exact getRecipientFeeP_stable_append r0 s b r b (smartDefaultFee b) h0

/-- A pure-read key stays a pure read through a whole fee-evaluation loop. -/
theorem resolveFeesP_preserve_stable (r0 s b : String) {f0 : Int} :
    ∀ (rs : List String) (ps : List PermRow),
      getRecipientFeeP r0 s b ps = (f0, ps) →
      getRecipientFeeP r0 s b (resolveFeesP s b rs ps).2 = (f0, (resolveFeesP s b rs ps).2)
  | [], ps, h0 => h0
  | recip :: rest, ps, h0 => by
    unfold resolveFeesP
    have h1 : getRecipientFeeP (trimSpace recip) s b ps =
        ((getRecipientFeeP (trimSpace recip) s b ps).1,
         (getRecipientFeeP (trimSpace recip) s b ps).2) := rfl
    exact resolveFeesP_preserve_stable r0 s b rest _
      (getRecipientFeeP_preserve_stable r0 (trimSpace recip) s b h0 h1)

/-- Every row the fee-evaluation loop produces is stable against the loop's
final permission table: resolving it again returns the same fee and writes
nothing. -/
theorem resolveFeesP_stable (s b : String) :
    ∀ (rs : List String) (ps : List PermRow),
      ∀ fr ∈ (resolveFeesP s b rs ps).1,
        getRecipientFeeP fr.recipient s b (resolveFeesP s b rs ps).2 =
          (fr.recipientFee, (resolveFeesP s b rs ps).2)
  | [], ps => by simp [resolveFeesP]
  | recip :: rest, ps => by
    intro fr hfr
    unfold resolveFeesP at hfr ⊢
    simp only [List.mem_cons] at hfr
    rcases hfr with hfr | hfr
    · subst hfr
      exact resolveFeesP_preserve_stable _ s b rest _
        (getRecipientFeeP_self_stable (trimSpace recip) s b rfl)
    · exact resolveFeesP_stable s b rest _ fr hfr

/-- Running the fee-evaluation loop again on its own output permission
table returns the same rows and changes nothing. -/
theorem resolveFeesP_idem (s b : String) :
    ∀ (rs : List String) (ps : List PermRow),
      resolveFeesP s b rs (resolveFeesP s b rs ps).2 = resolveFeesP s b rs ps
  | [], ps => rfl
  | recip :: rest, ps => by
    simp only [resolveFeesP]
    have hstab : getRecipientFeeP (trimSpace recip) s b
        (resolveFeesP s b rest (getRecipientFeeP (trimSpace recip) s b ps).2).2 =
        ((getRecipientFeeP (trimSpace recip) s b ps).1,
         (resolveFeesP s b rest (getRecipientFeeP (trimSpace recip) s b ps).2).2) :=
      resolveFeesP_preserve_stable _ s b rest _
        (getRecipientFeeP_self_stable (trimSpace recip) s b rfl)
    simp only [hstab]
    rw [resolveFeesP_idem s b rest]

/-- The rows of the fee-evaluation loop: trimmed recipients in order, with
`allowed` derived as `fee != -1`. -/
theorem resolveFeesP_rows (s b : String) :
    ∀ (rs : List String) (ps : List PermRow),
      ((resolveFeesP s b rs ps).1.map FeeRow.recipient = rs.map trimSpace) ∧
      (∀ fr ∈ (resolveFeesP s b rs ps).1, fr.allowed = (fr.recipientFee != -1))
  | [], ps => by simp [resolveFeesP]
  | recip :: rest, ps => by
    unfold resolveFeesP
    constructor
    · simpa using (resolveFeesP_rows s b rest _).1
    · intro fr hfr
      simp only [List.mem_cons] at hfr
      rcases hfr with hfr | hfr
      · subst hfr; rfl
      · exact (resolveFeesP_rows s b rest _).2 fr hfr

/-! ### Which table each operation touches -/

theorem EnsureMessageBox_permissions (i b : String) (d : DB) :
    (EnsureMessageBox i b d).2.permissions = d.permissions := by
  simp only [EnsureMessageBox]
  split <;> split <;> rfl

theorem EnsureMessageBox_messages (i b : String) (d : DB) :
    (EnsureMessageBox i b d).2.messages = d.messages := by
  simp only [EnsureMessageBox]
  split <;> split <;> rfl

theorem EnsureMessageBox_serverFees (i b : String) (d : DB) :
    (EnsureMessageBox i b d).2.serverFees = d.serverFees := by
  simp only [EnsureMessageBox]
  split <;> split <;> rfl

theorem ensureBoxes_permissions (b : String) :
    ∀ (rs : List String) (d : DB), (ensureBoxes b rs d).permissions = d.permissions
  | [], _ => rfl
  | recip :: rest, d => by
    rw [ensureBoxes, ensureBoxes_permissions b rest, EnsureMessageBox_permissions]

theorem ensureBoxes_messages (b : String) :
    ∀ (rs : List String) (d : DB), (ensureBoxes b rs d).messages = d.messages
  | [], _ => rfl
  | recip :: rest, d => by
    rw [ensureBoxes, ensureBoxes_messages b rest, EnsureMessageBox_messages]

theorem ensureBoxes_serverFees (b : String) :
    ∀ (rs : List String) (d : DB), (ensureBoxes b rs d).serverFees = d.serverFees
  | [], _ => rfl
  | recip :: rest, d => by
    rw [ensureBoxes, ensureBoxes_serverFees b rest, EnsureMessageBox_serverFees]

theorem InsertMessage_permissions (mid : String) (mb : Int) (s r bd : String) (d : DB) :
    (InsertMessage mid mb s r bd d).permissions = d.permissions := by
  unfold InsertMessage; split <;> rfl

theorem InsertMessage_serverFees (mid : String) (mb : Int) (s r bd : String) (d : DB) :
    (InsertMessage mid mb s r bd d).serverFees = d.serverFees := by
  unfold InsertMessage; split <;> rfl

theorem InsertMessage_boxes (mid : String) (mb : Int) (s r bd : String) (d : DB) :
    (InsertMessage mid mb s r bd d).boxes = d.boxes := by
  unfold InsertMessage; split <;> rfl

theorem InsertMessage_hasMsgId_after (mid : String) (mb : Int) (s r bd : String) (d : DB) :
    hasMsgId (InsertMessage mid mb s r bd d) mid = true := by
  unfold InsertMessage hasMsgId
  split
  · assumption
  · simp

theorem InsertMessage_hasMsgId_mono (mid' mid : String) (mb : Int) (s r bd : String) (d : DB)
    (h : hasMsgId d mid' = true) :
    hasMsgId (InsertMessage mid mb s r bd d) mid' = true := by
  unfold InsertMessage hasMsgId at *
  split
  · exact h
  · simp only [List.any_append, h, Bool.true_or]

theorem InsertMessage_noop (mid : String) (mb : Int) (s r bd : String) (d : DB)
    (h : hasMsgId d mid = true) :
    InsertMessage mid mb s r bd d = d := by
  unfold hasMsgId at h
  unfold InsertMessage
  rw [if_pos h]

theorem storeLoop_permissions (sk bt bs : String) :
    ∀ (pairs : List (FeeRow × String)) (d : DB),
      (storeLoop sk bt bs pairs d).2.permissions = d.permissions
  | [], _ => rfl
  | (fr, mid) :: rest, d => by
    rw [storeLoop]
    rw [storeLoop_permissions sk bt bs rest, InsertMessage_permissions]

theorem storeLoop_serverFees (sk bt bs : String) :
    ∀ (pairs : List (FeeRow × String)) (d : DB),
      (storeLoop sk bt bs pairs d).2.serverFees = d.serverFees
  | [], _ => rfl
  | (fr, mid) :: rest, d => by
    rw [storeLoop]
    rw [storeLoop_serverFees sk bt bs rest, InsertMessage_serverFees]

theorem storeLoop_results (sk bt bs : String) :
    ∀ (pairs : List (FeeRow × String)) (d : DB),
      (storeLoop sk bt bs pairs d).1 = pairs.map (fun p => (p.1.recipient, p.2))
  | [], _ => rfl
  | (fr, mid) :: rest, d => by
    rw [storeLoop]
    simp [storeLoop_results sk bt bs rest]

theorem storeLoop_hasMsgId_mono (sk bt bs : String) (mid' : String) :
    ∀ (pairs : List (FeeRow × String)) (d : DB),
      hasMsgId d mid' = true → hasMsgId (storeLoop sk bt bs pairs d).2 mid' = true
  | [], _, h => h
  | (fr, mid) :: rest, d, h => by
    rw [storeLoop]
    exact storeLoop_hasMsgId_mono sk bt bs mid' rest _
      (InsertMessage_hasMsgId_mono mid' mid _ sk fr.recipient bs d h)

theorem storeLoop_hasMsgId_after (sk bt bs : String) :
    ∀ (pairs : List (FeeRow × String)) (d : DB),
      ∀ pair ∈ pairs, hasMsgId (storeLoop sk bt bs pairs d).2 pair.2 = true
  | [], _ => by simp
  | (fr, mid) :: rest, d => by
    intro pair hpair
    rw [storeLoop]
    simp only [List.mem_cons] at hpair
    rcases hpair with hpair | hpair
    · subst hpair
      exact storeLoop_hasMsgId_mono sk bt bs _ rest _
        (InsertMessage_hasMsgId_after _ _ sk fr.recipient bs d)
    · exact storeLoop_hasMsgId_after sk bt bs rest _ pair hpair

/-- When every id in the batch is already stored, the store loop is a
complete no-op on the state and still reports every pair as delivered. -/
theorem storeLoop_noop (sk bt bs : String) :
    ∀ (pairs : List (FeeRow × String)) (d : DB),
      (∀ pair ∈ pairs, hasMsgId d pair.2 = true) →
      storeLoop sk bt bs pairs d = (pairs.map (fun p => (p.1.recipient, p.2)), d)
  | [], d, _ => rfl
  | (fr, mid) :: rest, d, h => by
    rw [storeLoop]
    have hmid : hasMsgId d mid = true := h (fr, mid) (List.mem_cons_self _ _)
    rw [InsertMessage_noop _ _ sk fr.recipient bs d hmid]
    rw [storeLoop_noop sk bt bs rest d (fun pair hpair => h pair (List.mem_cons_of_mem _ hpair))]
    simp

theorem InsertMessage_countMsgId_le (mid' mid : String) (mb : Int) (s r bd : String) (d : DB)
    (h : countMsgId d mid' ≤ 1) :
    countMsgId (InsertMessage mid mb s r bd d) mid' ≤ 1 := by
  unfold InsertMessage countMsgId at *
  split
  · exact h
  · next hany =>
    simp only [List.countP_append]
    by_cases hmm : mid = mid'
    · subst hmm
      have hz : d.messages.countP (fun m => m.messageId == mid) = 0 := by
        rw [List.countP_eq_zero]
        intro m hm
        intro hmeq
        exact hany (List.any_eq_true.mpr ⟨m, hm, hmeq⟩)
      simp [hz, List.countP_cons]
    · have : (List.countP (fun m => m.messageId == mid') ([⟨mid, mb, s, r, bd⟩] : List MsgRow)) = 0 := by
        simp [List.countP_cons, hmm]
      omega

theorem storeLoop_countMsgId_le (sk bt bs : String) (mid' : String) :
    ∀ (pairs : List (FeeRow × String)) (d : DB),
      countMsgId d mid' ≤ 1 → countMsgId (storeLoop sk bt bs pairs d).2 mid' ≤ 1
  | [], _, h => h
  | (fr, mid) :: rest, d, h => by
    rw [storeLoop]
    exact storeLoop_countMsgId_le sk bt bs mid' rest _
      (InsertMessage_countMsgId_le mid' mid _ sk fr.recipient bs d h)

/-- C1: fee resolution returns the sender-specific row's fee verbatim when
such a row exists (sender-specific precedence); otherwise the box-wide
NULL-sender row's fee when that exists; otherwise it computes the smart
default (10 for "notifications", else 0), persists it as a new box-wide
default row, and returns it. -/
theorem C1_fee_resolution_precedence (d : DB) (r s b : String) (hs : s ≠ "") :
    (∀ p, findPerm d.permissions r (some s) b = some p →
      GetRecipientFee r s b d = (p.recipientFee, d)) ∧
    (findPerm d.permissions r (some s) b = none →
      ∀ p, findPerm d.permissions r none b = some p →
        GetRecipientFee r s b d = (p.recipientFee, d)) ∧
    (findPerm d.permissions r (some s) b = none →
      findPerm d.permissions r none b = none →
      GetRecipientFee r s b d =
        (smartDefaultFee b,
          { d with permissions := d.permissions ++ [⟨r, none, b, smartDefaultFee b⟩] }) ∧
      smartDefaultFee b = (if b == "notifications" then 10 else 0) ∧
      findPerm (d.permissions ++ [⟨r, none, b, smartDefaultFee b⟩]) r none b =
        some ⟨r, none, b, smartDefaultFee b⟩) := by
  have hs' : (s == "") = false := by simp [hs]
  refine ⟨?_, ?_, ?_⟩
  · intro p hp
    unfold GetRecipientFee getRecipientFeeP
    simp [hs', hp]
  · intro hss p hp
    unfold GetRecipientFee getRecipientFeeP
    simp [hs', hss, hp]
  · intro hss hn
    refine ⟨?_, rfl, ?_⟩
    · unfold GetRecipientFee getRecipientFeeP
      simp [hs', hss, hn]
    · rw [findPerm_append_none _ hn]
      exact findPerm_defaultRow_self r b _

theorem C1_fee_resolution_precedence_witness :
    GetRecipientFee "r" "snd" "inbox" dC1 = (7, dC1) :=
  (C1_fee_resolution_precedence dC1 "r" "snd" "inbox" (by decide)).1
    ⟨"r", some "snd", "inbox", 7⟩ (by decide)

/-- C6: acknowledge deletes exactly the stored messages matching both the
caller's identity (as recipient) and one of the supplied ids, returns the
count removed, never touches another recipient's messages, and a zero
count is a client-visible "not found" failure rather than a success. -/
theorem C6_acknowledge_exact_delete (d : DB) (identityKey : String)
    (messageIds : List String) (hid : identityKey ≠ "") (hids : messageIds ≠ []) :
    (AcknowledgeMessages identityKey messageIds d).1 =
      (d.messages.filter
        (fun m => m.recipient == identityKey && messageIds.contains m.messageId)).length ∧
    (AcknowledgeMessages identityKey messageIds d).2.messages =
      d.messages.filter
        (fun m => !(m.recipient == identityKey && messageIds.contains m.messageId)) ∧
    (∀ m ∈ d.messages, m.recipient ≠ identityKey →
      m ∈ (AcknowledgeMessages identityKey messageIds d).2.messages) ∧
    ((d.messages.filter
        (fun m => m.recipient == identityKey && messageIds.contains m.messageId)).length = 0 →
      (AcknowledgeMessage identityKey messageIds d).1 =
        .failure 400 "ERR_INVALID_ACKNOWLEDGMENT") ∧
    ((d.messages.filter
        (fun m => m.recipient == identityKey && messageIds.contains m.messageId)).length ≠ 0 →
      (AcknowledgeMessage identityKey messageIds d).1 = .success) := by
  have hid' : (identityKey == "") = false := by simp [hid]
  have hlen : (messageIds.length == 0) = false := by
    simp [List.length_eq_zero, hids]
  refine ⟨?_, ?_, ?_, ?_, ?_⟩
  · unfold AcknowledgeMessages
    simp [hlen]
  · unfold AcknowledgeMessages
    simp [hlen]
  · intro m hm hrec
    unfold AcknowledgeMessages
    simp only [hlen, Bool.false_eq_true, if_false]
    refine List.mem_filter.mpr ⟨hm, ?_⟩
    simp [hrec]
  · intro h0
    have hcount : (AcknowledgeMessages identityKey messageIds d).1 =
        (d.messages.filter
          (fun m => m.recipient == identityKey && messageIds.contains m.messageId)).length := by
      unfold AcknowledgeMessages
      simp [hlen]
    have hc : ((AcknowledgeMessages identityKey messageIds d).1 == 0) = true := by
      rw [hcount, h0]
      rfl
    simp only [AcknowledgeMessage]
    rw [if_neg (by simp [hid]), if_neg (by simp [List.length_eq_zero, hids]), if_pos hc]
  · intro h0
    have hcount : (AcknowledgeMessages identityKey messageIds d).1 =
        (d.messages.filter
          (fun m => m.recipient == identityKey && messageIds.contains m.messageId)).length := by
      unfold AcknowledgeMessages
      simp [hlen]
    have hc : ((AcknowledgeMessages identityKey messageIds d).1 == 0) = false := by
      rw [hcount]
      simpa using h0
    simp only [AcknowledgeMessage]
    rw [if_neg (by simp [hid]), if_neg (by simp [List.length_eq_zero, hids]), if_neg (by simp [hc])]

theorem C6_acknowledge_exact_delete_witness :
    (AcknowledgeMessages "alice" ["m1"] dC6).1 = 1 ∧
    (AcknowledgeMessage "alice" ["m1"] dC6).1 = AckResp.success ∧
    (AcknowledgeMessage "bob" ["m1"] dC6).1 =
      AckResp.failure 400 "ERR_INVALID_ACKNOWLEDGMENT" := by
  have h1 := C6_acknowledge_exact_delete dC6 "alice" ["m1"] (by decide) (by decide)
  have h2 := C6_acknowledge_exact_delete dC6 "bob" ["m1"] (by decide) (by decide)
  refine ⟨?_, ?_, ?_⟩
  · rw [h1.1]; decide
  · exact h1.2.2.2.2 (by decide)
  · exact h2.2.2.2.1 (by decide)

theorem permMatches_sameKey {r : String} {s : Option String} {b : String} {p q : PermRow}
    (hp : permMatches r s b p = true) (hq : permMatches r s b q = true) :
    sameKey p q = true := by
  simp only [permMatches, Bool.and_eq_true, beq_iff_eq] at hp hq
  simp [sameKey, hp.1.1, hp.1.2, hp.2, hq.1.1, hq.1.2, hq.2]

theorem sameKey_matches_new {r : String} {s : Option String} {b : String} (fee : Int)
    (q : PermRow) : sameKey q ⟨r, s, b, fee⟩ = permMatches r s b q := rfl

/-- The fee-update step of the upsert keeps every key field. -/
theorem updateFee_keys (r : String) (s : Option String) (b : String) (f : Int) (x : PermRow) :
    ((if permMatches r s b x then { x with recipientFee := f } else x).recipient = x.recipient) ∧
    ((if permMatches r s b x then { x with recipientFee := f } else x).sender = x.sender) ∧
    ((if permMatches r s b x then { x with recipientFee := f } else x).messageBox = x.messageBox) := by
  split <;> simp

theorem updateFee_matches (r : String) (s : Option String) (b : String) (f : Int)
    (r' : String) (s' : Option String) (b' : String) (x : PermRow) :
    permMatches r' s' b' (if permMatches r s b x then { x with recipientFee := f } else x) =
      permMatches r' s' b' x := by
  split <;> simp [permMatches]

theorem noDupKeysB_map_update (r : String) (s : Option String) (b : String) (f : Int) :
    ∀ ps, noDupKeysB ps = true →
      noDupKeysB (ps.map (fun p =>
        if permMatches r s b p then { p with recipientFee := f } else p)) = true
  | [], _ => rfl
  | p :: rest, h => by
    simp only [noDupKeysB, Bool.and_eq_true, Bool.not_eq_true'] at h
    simp only [List.map_cons, noDupKeysB, Bool.and_eq_true, Bool.not_eq_true']
    refine ⟨?_, noDupKeysB_map_update r s b f rest h.2⟩
    rw [List.any_map]
    have hfun : ∀ q : PermRow,
        (sameKey (if permMatches r s b p then { p with recipientFee := f } else p)
          (if permMatches r s b q then { q with recipientFee := f } else q)) = sameKey p q := by
      intro q
      have hp := updateFee_keys r s b f p
      have hq := updateFee_keys r s b f q
      simp only [sameKey, hp.1, hp.2.1, hp.2.2, hq.1, hq.2.1, hq.2.2]
    have heq : ((fun q => sameKey
            (if permMatches r s b p then { p with recipientFee := f } else p) q) ∘
          (fun p => if permMatches r s b p then { p with recipientFee := f } else p)) =
        (fun q => sameKey p q) := funext fun q => hfun q
    rw [heq, h.1]

theorem noDupKeysB_append_singleton {ps : List PermRow} {x : PermRow}
    (h : noDupKeysB ps = true) (hx : ∀ q ∈ ps, sameKey q x = false) :
    noDupKeysB (ps ++ [x]) = true := by
  induction ps with
  | nil => rfl
  | cons p rest ih =>
    simp only [noDupKeysB, Bool.and_eq_true, Bool.not_eq_true'] at h
    show (!((rest ++ [x]).any fun q => sameKey p q) && noDupKeysB (rest ++ [x])) = true
    rw [List.any_append, h.1]
    simp only [Bool.false_or, List.any_cons, List.any_nil, Bool.or_false,
      hx p (List.mem_cons_self _ _), Bool.not_false, Bool.true_and]
    exact ih h.2 (fun q hq => hx q (List.mem_cons_of_mem _ hq))

/-- The upsert preserves the ledger uniqueness invariant. -/
theorem setMessagePermissionP_noDup (r : String) (s : Option String) (b : String) (f : Int)
    {ps : List PermRow} (h : noDupKeysB ps = true) :
    noDupKeysB (setMessagePermissionP r s b f ps) = true := by
  unfold setMessagePermissionP
  split
  · exact noDupKeysB_map_update r s b f ps h
  · next hany =>
    refine noDupKeysB_append_singleton h ?_
    intro q hq
    rw [sameKey_matches_new]
    by_contra hc
    simp only [Bool.not_eq_false] at hc
    exact hany (List.any_eq_true.mpr ⟨q, hq, hc⟩)

theorem setMessagePermissionP_countKey_self (r : String) (s : Option String) (b : String)
    (f : Int) (ps : List PermRow) :
    countKey (setMessagePermissionP r s b f ps) r s b =
      (if ps.any (permMatches r s b) then countKey ps r s b else countKey ps r s b + 1) := by
  unfold setMessagePermissionP countKey
  split
  · rw [List.countP_map]
    apply List.countP_congr
    intro q _
    simp [Function.comp, updateFee_matches]
  · rw [List.countP_append]
    simp [List.countP_cons, permMatches]

theorem noDupKeysB_countKey_le (r : String) (s : Option String) (b : String) :
    ∀ ps, noDupKeysB ps = true → countKey ps r s b ≤ 1
  | [], _ => by simp [countKey]
  | p :: rest, h => by
    simp only [noDupKeysB, Bool.and_eq_true, Bool.not_eq_true'] at h
    rw [countKey, List.countP_cons]
    by_cases hp : permMatches r s b p = true
    · have hz : rest.countP (permMatches r s b) = 0 := by
        rw [List.countP_eq_zero]
        intro q hq hmq
        have : sameKey p q = true := permMatches_sameKey hp hmq
        have : rest.any (fun q => sameKey p q) = true := List.any_eq_true.mpr ⟨q, hq, this⟩
        rw [h.1] at this
        exact absurd this (by simp)
      simp [hp, hz]
    · have := noDupKeysB_countKey_le r s b rest h.2
      rw [countKey] at this
      simp only [Bool.not_eq_true] at hp
      simp [hp]
      omega

theorem setMessagePermissionP_fee (r : String) (s : Option String) (b : String) (f : Int)
    (ps : List PermRow) :
    ∀ p ∈ setMessagePermissionP r s b f ps,
      permMatches r s b p = true → p.recipientFee = f := by
  unfold setMessagePermissionP
  split
  · intro p hp hm
    rcases List.mem_map.mp hp with ⟨q, hq, hqe⟩
    subst hqe
    rw [updateFee_matches] at hm
    simp [hm]
  · next hany =>
    intro p hp hm
    rcases List.mem_append.mp hp with hp | hp
    · exact absurd (List.any_eq_true.mpr ⟨p, hp, hm⟩) (by simpa using hany)
    · simp only [List.mem_singleton] at hp
      subst hp
      rfl

/-- C7: the permission ledger holds at most one row per
(recipient, sender, box-type) triple with the absent sender its own key:
the upsert preserves the no-duplicate-key invariant for both sender
shapes, repeated box-wide sets leave exactly one NULL-sender row carrying
the last fee, and an upsert for an existing present-sender row updates its
fee in place (same row count, other rows kept). -/
theorem C7_permission_upsert (ps : List PermRow) (r b s : String) (f f' : Int)
    (hinv : noDupKeysB ps = true) :
    noDupKeysB (setMessagePermissionP r none b f ps) = true ∧
    noDupKeysB (setMessagePermissionP r (some s) b f ps) = true ∧
    countKey (setMessagePermissionP r none b f'
      (setMessagePermissionP r none b f ps)) r none b = 1 ∧
    (∀ p ∈ setMessagePermissionP r none b f' (setMessagePermissionP r none b f ps),
      permMatches r none b p = true → p.recipientFee = f') ∧
    ((∃ q ∈ ps, permMatches r (some s) b q = true) →
      (setMessagePermissionP r (some s) b f ps).length = ps.length ∧
      (∀ p ∈ setMessagePermissionP r (some s) b f ps,
        permMatches r (some s) b p = true → p.recipientFee = f) ∧
      (∀ p ∈ ps, permMatches r (some s) b p = false →
        p ∈ setMessagePermissionP r (some s) b f ps)) := by
  have hnd1 : noDupKeysB (setMessagePermissionP r none b f ps) = true :=
    setMessagePermissionP_noDup r none b f hinv
  have hcount1 : countKey (setMessagePermissionP r none b f ps) r none b = 1 := by
    rw [setMessagePermissionP_countKey_self]
    split
    · next hany =>
      have hle := noDupKeysB_countKey_le r none b ps hinv
      have hpos : 0 < countKey ps r none b := by
        rcases List.any_eq_true.mp hany with ⟨q, hq, hmq⟩
        exact List.countP_pos_iff.mpr ⟨q, hq, hmq⟩
      omega
    · next hany =>
      have hz : countKey ps r none b = 0 := by
        rw [countKey, List.countP_eq_zero]
        intro q hq hmq
        exact hany (List.any_eq_true.mpr ⟨q, hq, hmq⟩)
      omega
  refine ⟨hnd1, setMessagePermissionP_noDup r (some s) b f hinv, ?_, ?_, ?_⟩
  · rw [setMessagePermissionP_countKey_self]
    have hany : (setMessagePermissionP r none b f ps).any (permMatches r none b) = true := by
      have : 0 < countKey (setMessagePermissionP r none b f ps) r none b := by omega
      rcases List.countP_pos_iff.mp this with ⟨q, hq, hmq⟩
      exact List.any_eq_true.mpr ⟨q, hq, hmq⟩
    rw [if_pos hany]
    exact hcount1
  · exact setMessagePermissionP_fee r none b f' _
  · intro ⟨q, hq, hmq⟩
    have hany : ps.any (permMatches r (some s) b) = true :=
      List.any_eq_true.mpr ⟨q, hq, hmq⟩
    refine ⟨?_, setMessagePermissionP_fee r (some s) b f ps, ?_⟩
    · unfold setMessagePermissionP
      rw [if_pos hany, List.length_map]
    · intro p hp hm
      unfold setMessagePermissionP
      rw [if_pos hany]
      refine List.mem_map.mpr ⟨p, hp, ?_⟩
      rw [hm]
      simp

theorem C7_permission_upsert_witness :
    countKey (setMessagePermissionP "r" none "inbox" 5
      (setMessagePermissionP "r" none "inbox" 3 [])) "r" none "inbox" = 1 ∧
    noDupKeysB (setMessagePermissionP "r" (some "snd") "inbox" 4 []) = true := by
  have h := C7_permission_upsert [] "r" "inbox" "snd" 3 5 (by decide)
  exact ⟨h.2.2.1, h.2.1⟩

/-- C9 counterexample: a stored push token of exactly 10 characters is
echoed back verbatim by the device list — the returned `fcmToken` equals
the stored full token, contradicting "the full token is never echoed
back". -/
theorem C9_counterexample :
    (ListDevices "id1" dC9).map DeviceOut.fcmToken = ["0123456789"] ∧
    dC9.devices.map DeviceRow.fcmToken = ["0123456789"] := by decide

theorem maskFCMToken_length {token : String} (h : 10 < token.length) :
    (maskFCMToken token).length = 13 := by
  unfold maskFCMToken
  rw [if_pos h, String.length_append]
  show ("..." : String).length + (token.data.drop (token.length - 10)).length = 13
  rw [List.length_drop]
  have hlen : token.data.length = token.length := rfl
  rw [hlen]
  have h3 : ("..." : String).length = 3 := by decide
  omega

/-- C9 (amended): the device list returns, for each registration of the
caller, the stored token masked — unchanged when it has at most 10
characters, otherwise an ellipsis marker followed by its last 10
characters; any token longer than 10 characters whose length is not
exactly 13 is therefore never echoed back verbatim. -/
theorem C9_token_masking (d : DB) (identityKey : String) (dev : DeviceRow)
    (hmem : dev ∈ d.devices) (hid : dev.identityKey = identityKey) :
    (∃ o ∈ ListDevices identityKey d, o.fcmToken = maskFCMToken dev.fcmToken) ∧
    (dev.fcmToken.length ≤ 10 → maskFCMToken dev.fcmToken = dev.fcmToken) ∧
    (10 < dev.fcmToken.length → dev.fcmToken.length ≠ 13 →
      maskFCMToken dev.fcmToken ≠ dev.fcmToken) := by
  refine ⟨?_, ?_, ?_⟩
  · refine ⟨⟨dev.id, dev.deviceId, dev.platform, maskFCMToken dev.fcmToken, dev.active⟩, ?_, rfl⟩
    unfold ListDevices
    exact List.mem_map.mpr ⟨dev, List.mem_filter.mpr ⟨hmem, by simp [hid]⟩, rfl⟩
  · intro hle
    unfold maskFCMToken
    rw [if_neg (by omega)]
  · intro h1 h2 heq
    have hlen := congrArg String.length heq
    rw [maskFCMToken_length h1] at hlen
    exact h2 hlen.symm

theorem C9_token_masking_witness :
    (∃ o ∈ ListDevices "id2" dC9b, o.fcmToken = maskFCMToken "tok-0123456789abcd") ∧
    maskFCMToken "tok-0123456789abcd" ≠ "tok-0123456789abcd" := by
  have h := C9_token_masking dC9b "id2" ⟨2, "id2", "tok-0123456789abcd", none, none, true⟩
    (by decide) (by decide)
  exact ⟨h.1, h.2.2 (by decide) (by decide)⟩

/-- C5 counterexample: on a request whose body is empty AND whose box-type
is blank, the handler returns the invalid-box error, not the invalid-body
error the claim requires. -/
theorem C5_counterexample :
    (SendMessage (fun _ => true) "snd" reqC5 DB.empty).1 =
      SendResp.failure 400 "ERR_INVALID_MESSAGEBOX" ∧
    SendResp.failure 400 "ERR_INVALID_MESSAGEBOX" ≠
      SendResp.failure 400 "ERR_INVALID_MESSAGE_BODY" := by decide

/-- C5 (amended): send validation runs box-type, then body, then recipients
present, then recipient/message-id count match, then blank message-ids,
then recipient key format — each a distinct terminal failure; a validation
error is returned by the handler as-is with the state untouched.  In
particular a request with blank box-type AND empty body gets the
invalid-box error. -/
theorem C5_validation_order (validKey : String → Bool) (senderKey : String)
    (msg : SendMessageBody) (payment : String) (hs : senderKey ≠ "") :
    (trimSpace msg.messageBox = "" →
      validateSend validKey senderKey ⟨some msg, payment⟩ =
        .error (400, "ERR_INVALID_MESSAGEBOX")) ∧
    (trimSpace msg.messageBox ≠ "" → bodyInvalid msg.body = true →
      validateSend validKey senderKey ⟨some msg, payment⟩ =
        .error (400, "ERR_INVALID_MESSAGE_BODY")) ∧
    (trimSpace msg.messageBox ≠ "" → bodyInvalid msg.body = false →
      (if msg.recipients.isEmptyOrNull then msg.recipient
        else msg.recipients).isEmptyOrNull = true →
      validateSend validKey senderKey ⟨some msg, payment⟩ =
        .error (400, "ERR_RECIPIENT_REQUIRED")) ∧
    (∀ rs ms, trimSpace msg.messageBox ≠ "" → bodyInvalid msg.body = false →
      (if msg.recipients.isEmptyOrNull then msg.recipient
        else msg.recipients).isEmptyOrNull = false →
      unmarshalStrings (if msg.recipients.isEmptyOrNull then msg.recipient
        else msg.recipients) = some rs →
      unmarshalStrings msg.messageId = some ms →
      (((rs.length > 1 ∧ ms.length = 1) ∨ ms.length ≠ rs.length →
        validateSend validKey senderKey ⟨some msg, payment⟩ =
          .error (400, "ERR_MESSAGEID_COUNT_MISMATCH")) ∧
      (ms.length = rs.length → (∃ i ∈ ms, trimSpace i = "") →
        validateSend validKey senderKey ⟨some msg, payment⟩ =
          .error (400, "ERR_INVALID_MESSAGEID")) ∧
      (ms.length = rs.length → (∀ i ∈ ms, trimSpace i ≠ "") →
        (∃ r ∈ rs, validKey (trimSpace r) = false) →
        validateSend validKey senderKey ⟨some msg, payment⟩ =
          .error (400, "ERR_INVALID_RECIPIENT_KEY")) ∧
      (ms.length = rs.length → (∀ i ∈ ms, trimSpace i ≠ "") →
        (∀ r ∈ rs, validKey (trimSpace r) = true) →
        validateSend validKey senderKey ⟨some msg, payment⟩ = .ok ⟨msg, rs, ms⟩))) ∧
    (∀ e, validateSend validKey senderKey ⟨some msg, payment⟩ = .error e →
      ∀ d, SendMessage validKey senderKey ⟨some msg, payment⟩ d = (.failure e.1 e.2, d)) := by
  have hs' : (senderKey == "") = false := by simp [hs]
  refine ⟨?_, ?_, ?_, ?_, ?_⟩
  · intro hbox
    unfold validateSend
    simp [hs', hbox]
  · intro hbox hbody
    unfold validateSend
    simp [hs', hbox, hbody]
  · intro hbox hbody hrec
    unfold validateSend
    simp [hs', hbox, hbody, hrec]
  · intro rs ms hbox hbody hrec hums humi
    refine ⟨?_, ?_, ?_, ?_⟩
    · intro hcnt
      unfold validateSend
      rcases hcnt with ⟨h1, h2⟩ | h1
      · simp [hs', hbox, hbody, hrec, hums, humi, h1, h2]
      · simp [hs', hbox, hbody, hrec, hums, humi, h1]
    · intro hlen hblank
      unfold validateSend
      simp [hs', hbox, hbody, hrec, hums, humi, hlen]
      rw [if_neg (by omega), if_pos hblank]
    · intro hlen hblank hkey
      unfold validateSend
      simp [hs', hbox, hbody, hrec, hums, humi, hlen]
      rw [if_neg (by omega), if_neg (by push_neg; exact hblank), if_pos hkey]
    · intro hlen hblank hkey
      unfold validateSend
      simp [hs', hbox, hbody, hrec, hums, humi, hlen]
      rw [if_neg (by omega), if_neg (by push_neg; exact hblank),
        if_neg (by push_neg; intro r hr; simp [hkey r hr])]
  · intro e he d
    unfold SendMessage
    rw [he]

theorem C5_validation_order_witness :
    validateSend (fun _ => true) "snd"
      ⟨some ⟨.absent, .arr ["alice"], " ", .arr ["m1"], "\"hi\""⟩, ""⟩ =
      .error (400, "ERR_INVALID_MESSAGEBOX") ∧
    validateSend (fun _ => true) "snd"
      ⟨some ⟨.absent, .arr ["alice"], "inbox", .arr ["m1"], "null"⟩, ""⟩ =
      .error (400, "ERR_INVALID_MESSAGE_BODY") ∧
    validateSend (fun _ => true) "snd"
      ⟨some ⟨.absent, .arr ["alice"], "inbox", .arr ["m1"], "\"hi\""⟩, ""⟩ =
      .ok ⟨⟨.absent, .arr ["alice"], "inbox", .arr ["m1"], "\"hi\""⟩, ["alice"], ["m1"]⟩ := by
  have h1 := C5_validation_order (fun _ => true) "snd"
    ⟨.absent, .arr ["alice"], " ", .arr ["m1"], "\"hi\""⟩ "" (by decide)
  have h2 := C5_validation_order (fun _ => true) "snd"
    ⟨.absent, .arr ["alice"], "inbox", .arr ["m1"], "null"⟩ "" (by decide)
  have h3 := C5_validation_order (fun _ => true) "snd"
    ⟨.absent, .arr ["alice"], "inbox", .arr ["m1"], "\"hi\""⟩ "" (by decide)
  refine ⟨h1.1 (by decide), h2.2.1 (by decide) (by decide), ?_⟩
  exact (h3.2.2.2.1 ["alice"] ["m1"] (by decide) (by decide) (by decide) (by decide)
    (by decide)).2.2.2 (by decide) (by decide) (by decide)

/-- A request that passed validation and has a blocked recipient is wholly
refused with the full blocked list; the message store is untouched. -/
theorem sendMessageCore_blocked (senderKey : String) (msg : SendMessageBody) (payment : String)
    (recipients messageIDs : List String) (d : DB)
    (hblk : ∃ row ∈ sendFeeRows senderKey msg recipients d, row.recipientFee = -1) :
    sendMessageCore senderKey msg payment recipients messageIDs d =
      (.blocked (((sendFeeRows senderKey msg recipients d).filter
          (fun row => row.recipientFee == -1)).map FeeRow.recipient),
       { ensureBoxes (trimSpace msg.messageBox) recipients d with
          permissions := (resolveFeesP senderKey (trimSpace msg.messageBox) recipients
            (ensureBoxes (trimSpace msg.messageBox) recipients d).permissions).2 }) := by
  unfold sendFeeRows at *
  simp only [sendMessageCore]
  have hallow := (resolveFeesP_rows senderKey (trimSpace msg.messageBox) recipients
    (ensureBoxes (trimSpace msg.messageBox) recipients d).permissions).2
  have hfeq : (resolveFeesP senderKey (trimSpace msg.messageBox) recipients
        (ensureBoxes (trimSpace msg.messageBox) recipients d).permissions).1.filter
          (fun row => !row.allowed) =
      (resolveFeesP senderKey (trimSpace msg.messageBox) recipients
        (ensureBoxes (trimSpace msg.messageBox) recipients d).permissions).1.filter
          (fun row => row.recipientFee == -1) := by
    apply List.filter_congr
    intro row hrow
    rw [hallow row hrow]
    simp [bne]
  rcases hblk with ⟨row, hrow, hfee⟩
  have hmem : row.recipient ∈ ((resolveFeesP senderKey (trimSpace msg.messageBox) recipients
      (ensureBoxes (trimSpace msg.messageBox) recipients d).permissions).1.filter
        (fun row => !row.allowed)).map FeeRow.recipient := by
    rw [hfeq]
    exact List.mem_map_of_mem _ (List.mem_filter.mpr ⟨hrow, by simp [hfee]⟩)
  rw [if_pos (List.length_pos.mpr (List.ne_nil_of_mem hmem))]
  rw [hfeq]

/-- C2: a send whose validated request resolves any recipient to fee `-1`
is refused with a blocked response enumerating exactly the fee `-1`
recipients, and the message store is unchanged — nothing is delivered to
blocked or non-blocked recipients. -/
theorem C2_blocked_refusal (validKey : String → Bool) (senderKey : String)
    (req : SendMessageRequest) (d : DB) (v : ValidatedSend)
    (hv : validateSend validKey senderKey req = .ok v)
    (hblk : ∃ row ∈ sendFeeRows senderKey v.msg v.recipients d, row.recipientFee = -1) :
    (SendMessage validKey senderKey req d).1 =
      .blocked (((sendFeeRows senderKey v.msg v.recipients d).filter
        (fun row => row.recipientFee == -1)).map FeeRow.recipient) ∧
    (SendMessage validKey senderKey req d).2.messages = d.messages := by
  unfold SendMessage
  rw [hv]
  dsimp only
  rw [sendMessageCore_blocked senderKey v.msg req.payment v.recipients v.messageIDs d hblk]
  refine ⟨rfl, ?_⟩
  show (ensureBoxes (trimSpace v.msg.messageBox) v.recipients d).messages = d.messages
  exact ensureBoxes_messages _ _ _

theorem C2_blocked_refusal_witness :
    (SendMessage (fun _ => true) "snd" reqC2 dC2).1 = SendResp.blocked ["alice"] ∧
    (SendMessage (fun _ => true) "snd" reqC2 dC2).2.messages = dC2.messages := by
  have h := C2_blocked_refusal (fun _ => true) "snd" reqC2 dC2
    ⟨⟨.absent, .arr ["alice", "bob"], "inbox", .arr ["m1", "m2"], "\"hi\""⟩,
      ["alice", "bob"], ["m1", "m2"]⟩
    (by rfl) (by decide)
  refine ⟨?_, h.2⟩
  rw [h.1]
  decide

/-- A validated request with no blocked recipient, a true payment gate and
no payment payload is refused with the missing-payment error; the message
store is untouched. -/
theorem sendMessageCore_missing_payment (senderKey : String) (msg : SendMessageBody)
    (payment : String) (recipients messageIDs : List String) (d : DB)
    (hnb : ∀ row ∈ sendFeeRows senderKey msg recipients d, row.recipientFee ≠ -1)
    (hgate : sendRequiresPayment senderKey msg recipients d = true)
    (hmiss : paymentMissing payment = true) :
    sendMessageCore senderKey msg payment recipients messageIDs d =
      (.failure 400 "ERR_MISSING_PAYMENT_TX",
       { ensureBoxes (trimSpace msg.messageBox) recipients d with
          permissions := (resolveFeesP senderKey (trimSpace msg.messageBox) recipients
            (ensureBoxes (trimSpace msg.messageBox) recipients d).permissions).2 }) := by
  unfold sendFeeRows at hnb
  unfold sendRequiresPayment sendDeliveryFee sendFeeRows at hgate
  simp only [sendMessageCore]
  have hallow := (resolveFeesP_rows senderKey (trimSpace msg.messageBox) recipients
    (ensureBoxes (trimSpace msg.messageBox) recipients d).permissions).2
  have hfilter : (resolveFeesP senderKey (trimSpace msg.messageBox) recipients
      (ensureBoxes (trimSpace msg.messageBox) recipients d).permissions).1.filter
        (fun row => !row.allowed) = [] := by
    rw [List.filter_eq_nil_iff]
    intro row hrow
    rw [hallow row hrow]
    simp [bne, hnb row hrow]
  rw [hfilter]
  simp only [List.map_nil, List.length_nil]
  rw [if_neg (by omega)]
  rw [if_pos (by rw [hgate, hmiss]; rfl)]

/-- C3: for a validated send with no blocked recipient (and fees within the
spec's contract: surcharge nonnegative, fees at least `-1`), the payment
gate is true exactly when the surcharge is nonzero or some recipient's
resolved fee is nonzero; when the gate is true and the request carries no
payment payload, the send fails with the missing-payment error and stores
nothing. -/
theorem C3_payment_gate (validKey : String → Bool) (senderKey : String)
    (req : SendMessageRequest) (d : DB) (v : ValidatedSend)
    (hv : validateSend validKey senderKey req = .ok v)
    (hnb : ∀ row ∈ sendFeeRows senderKey v.msg v.recipients d, row.recipientFee ≠ -1)
    (hdf : 0 ≤ sendDeliveryFee v.msg v.recipients d)
    (hfees : ∀ row ∈ sendFeeRows senderKey v.msg v.recipients d, -1 ≤ row.recipientFee) :
    (sendRequiresPayment senderKey v.msg v.recipients d = true ↔
      (sendDeliveryFee v.msg v.recipients d ≠ 0 ∨
        ∃ row ∈ sendFeeRows senderKey v.msg v.recipients d, row.recipientFee ≠ 0)) ∧
    (sendRequiresPayment senderKey v.msg v.recipients d = true →
      paymentMissing req.payment = true →
      (SendMessage validKey senderKey req d).1 = .failure 400 "ERR_MISSING_PAYMENT_TX" ∧
      (SendMessage validKey senderKey req d).2.messages = d.messages) := by
  constructor
  · unfold sendRequiresPayment
    constructor
    · intro h
      rcases Bool.or_eq_true_iff.mp h with h | h
      · left
        have := of_decide_eq_true h
        omega
      · rcases List.any_eq_true.mp h with ⟨row, hrow, hpos⟩
        have := of_decide_eq_true hpos
        exact .inr ⟨row, hrow, by omega⟩
    · intro h
      apply Bool.or_eq_true_iff.mpr
      rcases h with h | ⟨row, hrow, hne⟩
      · exact .inl (decide_eq_true (by omega))
      · refine .inr (List.any_eq_true.mpr ⟨row, hrow, decide_eq_true ?_⟩)
        have h1 := hnb row hrow
        have h2 := hfees row hrow
        omega
  · intro hgate hmiss
    unfold SendMessage
    rw [hv]
    dsimp only
    rw [sendMessageCore_missing_payment senderKey v.msg req.payment v.recipients
      v.messageIDs d hnb hgate hmiss]
    refine ⟨rfl, ?_⟩
    show (ensureBoxes (trimSpace v.msg.messageBox) v.recipients d).messages = d.messages
    exact ensureBoxes_messages _ _ _

theorem C3_payment_gate_witness :
    sendRequiresPayment "snd" msgC3 ["alice"] dC3 = true ∧
    (SendMessage (fun _ => true) "snd" reqC3 dC3).1 =
      SendResp.failure 400 "ERR_MISSING_PAYMENT_TX" ∧
    (SendMessage (fun _ => true) "snd" reqC3 dC3).2.messages = dC3.messages := by
  have h := C3_payment_gate (fun _ => true) "snd" reqC3 dC3 ⟨msgC3, ["alice"], ["m1"]⟩
    (by rfl) (by decide) (by decide) (by decide)
  have hg : sendRequiresPayment "snd" msgC3 ["alice"] dC3 = true := by decide
  exact ⟨hg, (h.2 hg (by decide)).1, (h.2 hg (by decide)).2⟩

theorem sumPositive_cons (x : Int) (l : List Int) :
    sumPositive (x :: l) = if 0 < x then x + sumPositive l else sumPositive l := by
  unfold sumPositive
  rw [List.filter_cons]
  by_cases h : 0 < x
  · rw [if_pos (by simpa using h), if_pos h, List.sum_cons]
  · rw [if_neg (by simpa using h), if_neg h]

/-- Closed forms for the quote loop: one entry per recipient in order, the
delivery total is the surcharge times the recipient count, the recipient
total is the sum of the positive resolved fees, the blocked list is
exactly the fee `-1` entries, and every entry carries the surcharge and
the derived status. -/
theorem quoteLoopP_spec (s b : String) (df : Int) :
    ∀ (rs : List String) (ps : List PermRow),
      (quoteLoopP s b df rs ps).quotes.map QuoteEntry.recipient = rs ∧
      (quoteLoopP s b df rs ps).totalDeliveryFees = df * rs.length ∧
      (quoteLoopP s b df rs ps).totalRecipientFees =
        sumPositive ((quoteLoopP s b df rs ps).quotes.map QuoteEntry.recipientFee) ∧
      (quoteLoopP s b df rs ps).blockedRecipients =
        ((quoteLoopP s b df rs ps).quotes.filter
          (fun e => e.recipientFee == -1)).map QuoteEntry.recipient ∧
      (∀ e ∈ (quoteLoopP s b df rs ps).quotes,
        e.deliveryFee = df ∧ e.messageBox = b ∧ e.status = feeStatus e.recipientFee)
  | [], ps => by simp [quoteLoopP, sumPositive]
  | rec :: rest, ps => by
    obtain ⟨ih1, ih2, ih3, ih4, ih5⟩ :=
      quoteLoopP_spec s b df rest (getRecipientFeeP rec s b ps).2
    simp only [quoteLoopP]
    refine ⟨?_, ?_, ?_, ?_, ?_⟩
    · simp [ih1]
    · simp only [List.length_cons]
      rw [ih2]
      push_cast
      ring
    · simp only [List.map_cons]
      rw [sumPositive_cons, ih3]
    · simp only [List.filter_cons]
      by_cases h : ((getRecipientFeeP rec s b ps).1 == -1)
      · simp only [h, if_pos rfl]
        simp [h, ih4]
      · have h' : ((getRecipientFeeP rec s b ps).1 == -1) = false := by
          simpa using h
        simp [h', ih4]
    · intro e he
      rcases List.mem_cons.mp he with he | he
      · subst he
        exact ⟨rfl, rfl, rfl⟩
      · exact ih5 e he

/-- C8 (amended): a multi-recipient quote returns one entry per recipient
with the server fee repeated per entry and the status derived from the
resolved fee (-1 blocked, 0 always_allow, positive payment_required); the
deliveryFees total is the server fee times the recipient count, the
recipientFees total is the sum of the positive resolved fees (blocked
`-1` fees contribute nothing), the combined total is their sum, and the
blocked list is exactly the blocked recipients. -/
theorem C8_quote_aggregation (validKey : String → Bool) (senderKey messageBox : String)
    (recipients : List String) (d : DB)
    (hsk : senderKey ≠ "") (hmb : messageBox ≠ "") (hn : 2 ≤ recipients.length)
    (hvalid : ∀ r ∈ recipients, validKey (trimSpace r) = true) :
    GetQuote validKey senderKey messageBox recipients d =
      (.multi (quoteOut senderKey messageBox recipients d).quotes
        (quoteOut senderKey messageBox recipients d).totalDeliveryFees
        (quoteOut senderKey messageBox recipients d).totalRecipientFees
        ((quoteOut senderKey messageBox recipients d).totalDeliveryFees +
          (quoteOut senderKey messageBox recipients d).totalRecipientFees)
        (quoteOut senderKey messageBox recipients d).blockedRecipients,
       { d with permissions := (quoteOut senderKey messageBox recipients d).perms }) ∧
    (quoteOut senderKey messageBox recipients d).totalDeliveryFees =
      GetServerDeliveryFee messageBox d * recipients.length ∧
    (quoteOut senderKey messageBox recipients d).totalRecipientFees =
      sumPositive ((quoteOut senderKey messageBox recipients d).quotes.map
        QuoteEntry.recipientFee) ∧
    (quoteOut senderKey messageBox recipients d).blockedRecipients =
      (((quoteOut senderKey messageBox recipients d).quotes.filter
        (fun e => e.recipientFee == -1)).map QuoteEntry.recipient) ∧
    (quoteOut senderKey messageBox recipients d).quotes.map QuoteEntry.recipient =
      recipients ∧
    (∀ e ∈ (quoteOut senderKey messageBox recipients d).quotes,
      e.deliveryFee = GetServerDeliveryFee messageBox d ∧
      (e.recipientFee = -1 → e.status = "blocked") ∧
      (e.recipientFee = 0 → e.status = "always_allow") ∧
      (0 < e.recipientFee → e.status = "payment_required")) := by
  obtain ⟨hq1, hq2, hq3, hq4, hq5⟩ :=
    quoteLoopP_spec senderKey messageBox (GetServerDeliveryFee messageBox d)
      recipients d.permissions
  refine ⟨?_, hq2, hq3, hq4, hq1, ?_⟩
  · unfold GetQuote
    rw [if_neg (by simp [hsk]), if_neg (by simp [hmb]),
      if_neg (by simp only [beq_iff_eq]; omega),
      if_neg (by
        simp only [List.any_eq_true, not_exists]
        intro rec
        simp only [not_and]
        intro hrec
        simp [hvalid rec hrec]),
      if_neg (by simp only [beq_iff_eq]; omega)]
    rfl
  · intro e he
    obtain ⟨he1, -, he3⟩ := hq5 e he
    refine ⟨he1, ?_, ?_, ?_⟩
    · intro hf
      rw [he3, feeStatus, hf]
      rfl
    · intro hf
      rw [he3, feeStatus, hf]
      rfl
    · intro hf
      rw [he3, feeStatus]
      rw [if_neg (by simp only [beq_iff_eq]; omega), if_pos hf]

/-- C8 counterexample: with X blocked (resolved fee `-1`) and Y at 5 sats,
the response's `recipientFees` is `5`, but the sum of the resolved
recipient fees is `-1 + 5 = 4` — the aggregate does not equal the sum of
the recipient fees, because only positive fees are accumulated. -/
theorem C8_counterexample :
    (GetQuote (fun _ => true) "snd" "bx" ["X", "Y"] dC8).1 =
      QuoteResp.multi
        [⟨"X", "bx", 0, -1, "blocked"⟩, ⟨"Y", "bx", 0, 5, "payment_required"⟩]
        0 5 5 ["X"] ∧
    (-1 : Int) + 5 ≠ 5 := by decide

theorem C8_quote_aggregation_witness :
    GetQuote (fun _ => true) "snd" "bx" ["X", "Y"] dC8w =
      (QuoteResp.multi
        [⟨"X", "bx", 3, 5, "payment_required"⟩, ⟨"Y", "bx", 3, 0, "always_allow"⟩]
        6 5 11 [],
       { dC8w with permissions := (quoteOut "snd" "bx" ["X", "Y"] dC8w).perms }) ∧
    (quoteOut "snd" "bx" ["X", "Y"] dC8w).totalDeliveryFees = 3 * 2 := by
  have h := C8_quote_aggregation (fun _ => true) "snd" "bx" ["X", "Y"] dC8w
    (by decide) (by decide) (by decide) (by decide)
  refine ⟨?_, ?_⟩
  · rw [h.1]
    decide
  · rw [h.2.1]
    decide

/-- `sendMessageCore` written through the named intermediate values. -/
theorem sendMessageCore_eq (senderKey : String) (msg : SendMessageBody) (payment : String)
    (recipients messageIDs : List String) (d : DB) :
    sendMessageCore senderKey msg payment recipients messageIDs d =
      (if (sendBlockedList senderKey msg recipients d).length > 0 then
        (.blocked (sendBlockedList senderKey msg recipients d),
         sendMidDB senderKey msg recipients d)
      else if sendRequiresPayment senderKey msg recipients d && paymentMissing payment then
        (.failure 400 "ERR_MISSING_PAYMENT_TX", sendMidDB senderKey msg recipients d)
      else
        (.success (sendStoreLoop senderKey msg payment recipients messageIDs d).1,
         (sendStoreLoop senderKey msg payment recipients messageIDs d).2)) := rfl

theorem sendMidDB_messages (senderKey : String) (msg : SendMessageBody)
    (recipients : List String) (d : DB) :
    (sendMidDB senderKey msg recipients d).messages = d.messages := by
  unfold sendMidDB
  show (ensureBoxes (trimSpace msg.messageBox) recipients d).messages = d.messages
  exact ensureBoxes_messages _ _ _

theorem sendMidDB_serverFees (senderKey : String) (msg : SendMessageBody)
    (recipients : List String) (d : DB) :
    (sendMidDB senderKey msg recipients d).serverFees = d.serverFees := by
  unfold sendMidDB
  show (ensureBoxes (trimSpace msg.messageBox) recipients d).serverFees = d.serverFees
  exact ensureBoxes_serverFees _ _ _

theorem sendBlockedList_nil (senderKey : String) (msg : SendMessageBody)
    (recipients : List String) (d : DB)
    (hnb : ∀ row ∈ sendFeeRows senderKey msg recipients d, row.recipientFee ≠ -1) :
    sendBlockedList senderKey msg recipients d = [] := by
  unfold sendBlockedList
  have hallow := (resolveFeesP_rows senderKey (trimSpace msg.messageBox) recipients
    (ensureBoxes (trimSpace msg.messageBox) recipients d).permissions).2
  have hfilter : (sendFeeRows senderKey msg recipients d).filter
      (fun row => !row.allowed) = [] := by
    rw [List.filter_eq_nil_iff]
    intro row hrow
    rw [hallow row hrow]
    simp [bne, hnb row hrow]
  rw [hfilter]
  rfl

theorem two_le_length_of_mem_ne {α : Type} {a b : α} {l : List α}
    (ha : a ∈ l) (hb : b ∈ l) (hne : a ≠ b) : 2 ≤ l.length := by
  match l with
  | [] => cases ha
  | [x] =>
    simp only [List.mem_singleton] at ha hb
    subst ha
    subst hb
    exact absurd rfl hne
  | x :: y :: rest =>
    simp only [List.length_cons]
    omega

/-- C10: message ids are globally unique across recipients — a send whose
single (recipient, messageId) pair reuses a messageId already stored for a
DIFFERENT recipient passes admission, reports the pair as delivered, yet
stores nothing: the message store is unchanged and the new recipient has
no stored message under that id. -/
theorem C10_global_id_dedup (validKey : String → Bool) (senderKey : String)
    (req : SendMessageRequest) (d : DB) (v : ValidatedSend) (r mid : String)
    (hv : validateSend validKey senderKey req = .ok v)
    (hrec : v.recipients = [r]) (hmid : v.messageIDs = [mid])
    (hnb : ∀ row ∈ sendFeeRows senderKey v.msg v.recipients d, row.recipientFee ≠ -1)
    (hgate : (sendRequiresPayment senderKey v.msg v.recipients d &&
      paymentMissing req.payment) = false)
    (hprior : ∃ m ∈ d.messages, m.messageId = mid ∧ m.recipient ≠ trimSpace r)
    (huniq : countMsgId d mid ≤ 1) :
    (SendMessage validKey senderKey req d).1 = .success [(trimSpace r, mid)] ∧
    (SendMessage validKey senderKey req d).2.messages = d.messages ∧
    ¬∃ m ∈ (SendMessage validKey senderKey req d).2.messages,
      m.recipient = trimSpace r ∧ m.messageId = mid := by
  unfold SendMessage
  rw [hv]
  dsimp only
  rw [hrec] at hnb hgate
  rw [hrec, hmid]
  rw [sendMessageCore_eq]
  rw [sendBlockedList_nil senderKey v.msg [r] d hnb]
  simp only [List.length_nil, gt_iff_lt, lt_self_iff_false, if_false]
  rw [if_neg (by simp [hgate])]
  have hmidpresent : hasMsgId (sendMidDB senderKey v.msg [r] d) mid = true := by
    unfold hasMsgId
    rw [sendMidDB_messages]
    rcases hprior with ⟨m, hm, hmeq, -⟩
    exact List.any_eq_true.mpr ⟨m, hm, by simp [hmeq]⟩
  have hpairs : ∀ pair ∈ (sendFeeRows senderKey v.msg [r] d).zip [mid],
      hasMsgId (sendMidDB senderKey v.msg [r] d) pair.2 = true := by
    intro pair hpair
    have : pair.2 ∈ [mid] := (List.of_mem_zip hpair).2
    simp only [List.mem_singleton] at this
    rw [this]
    exact hmidpresent
  have hnoop := storeLoop_noop senderKey (trimSpace v.msg.messageBox)
    (storedBody v.msg.body req.payment (sendRequiresPayment senderKey v.msg [r] d))
    ((sendFeeRows senderKey v.msg [r] d).zip [mid])
    (sendMidDB senderKey v.msg [r] d) hpairs
  have hsl : sendStoreLoop senderKey v.msg req.payment [r] [mid] d =
      (((sendFeeRows senderKey v.msg [r] d).zip [mid]).map (fun p => (p.1.recipient, p.2)),
       sendMidDB senderKey v.msg [r] d) := hnoop
  rw [hsl]
  have hfr : sendFeeRows senderKey v.msg [r] d =
      [⟨trimSpace r,
        (getRecipientFeeP (trimSpace r) senderKey (trimSpace v.msg.messageBox)
          (ensureBoxes (trimSpace v.msg.messageBox) [r] d).permissions).1,
        (getRecipientFeeP (trimSpace r) senderKey (trimSpace v.msg.messageBox)
          (ensureBoxes (trimSpace v.msg.messageBox) [r] d).permissions).1 != -1⟩] := rfl
  refine ⟨?_, ?_, ?_⟩
  · rw [hfr]
    rfl
  · exact sendMidDB_messages senderKey v.msg [r] d
  · rw [sendMidDB_messages]
    rintro ⟨m, hm, hmr, hmi⟩
    rcases hprior with ⟨m0, hm0, hm0i, hm0r⟩
    have hmne : m ≠ m0 := by
      intro he
      rw [he] at hmr
      exact hm0r hmr
    have hmf : m ∈ d.messages.filter (fun x => x.messageId == mid) :=
      List.mem_filter.mpr ⟨hm, by simp [hmi]⟩
    have hm0f : m0 ∈ d.messages.filter (fun x => x.messageId == mid) :=
      List.mem_filter.mpr ⟨hm0, by simp [hm0i]⟩
    have h2 := two_le_length_of_mem_ne hmf hm0f hmne
    rw [← List.countP_eq_length_filter] at h2
    unfold countMsgId at huniq
    omega

theorem C10_global_id_dedup_witness :
    (SendMessage (fun _ => true) "snd" reqC10 dC10).1 = SendResp.success [("rcpt", "m1")] ∧
    (SendMessage (fun _ => true) "snd" reqC10 dC10).2.messages = dC10.messages := by
  have h := C10_global_id_dedup (fun _ => true) "snd" reqC10 dC10
    ⟨⟨.str "rcpt", .absent, "inbox", .str "m1", "\"hi\""⟩, ["rcpt"], ["m1"]⟩ "rcpt" "m1"
    (by rfl) rfl rfl (by decide) (by decide) (by decide) (by decide)
  exact ⟨by rw [h.1]; decide, h.2.1⟩

theorem GetServerDeliveryFee_congr (b : String) {d e : DB}
    (h : d.serverFees = e.serverFees) :
    GetServerDeliveryFee b d = GetServerDeliveryFee b e := by
  unfold GetServerDeliveryFee
  rw [h]

theorem hasMsgId_congr {d e : DB} (h : d.messages = e.messages) (mid : String) :
    hasMsgId d mid = hasMsgId e mid := by
  unfold hasMsgId
  rw [h]

theorem countMsgId_congr {d e : DB} (h : d.messages = e.messages) (mid : String) :
    countMsgId d mid = countMsgId e mid := by
  unfold countMsgId
  rw [h]

theorem sendStoreLoop_permissions (senderKey : String) (msg : SendMessageBody)
    (payment : String) (recipients messageIDs : List String) (d : DB) :
    (sendStoreLoop senderKey msg payment recipients messageIDs d).2.permissions =
      (resolveFeesP senderKey (trimSpace msg.messageBox) recipients
        (ensureBoxes (trimSpace msg.messageBox) recipients d).permissions).2 := by
  unfold sendStoreLoop
  rw [storeLoop_permissions]
  rfl

theorem sendStoreLoop_serverFees (senderKey : String) (msg : SendMessageBody)
    (payment : String) (recipients messageIDs : List String) (d : DB) :
    (sendStoreLoop senderKey msg payment recipients messageIDs d).2.serverFees =
      d.serverFees := by
  unfold sendStoreLoop
  rw [storeLoop_serverFees]
  exact sendMidDB_serverFees _ _ _ _

/-- Once the permission table holds the first send's auto-provisioned
rows, re-running the fee evaluation returns the same rows and writes
nothing new. -/
theorem sendFeeRows_stable (senderKey : String) (msg : SendMessageBody)
    (recipients : List String) (d e : DB)
    (he : e.permissions = (resolveFeesP senderKey (trimSpace msg.messageBox) recipients
      (ensureBoxes (trimSpace msg.messageBox) recipients d).permissions).2) :
    sendFeeRows senderKey msg recipients e = sendFeeRows senderKey msg recipients d ∧
    (resolveFeesP senderKey (trimSpace msg.messageBox) recipients
      (ensureBoxes (trimSpace msg.messageBox) recipients e).permissions).2 =
    (resolveFeesP senderKey (trimSpace msg.messageBox) recipients
      (ensureBoxes (trimSpace msg.messageBox) recipients d).permissions).2 := by
  unfold sendFeeRows
  rw [ensureBoxes_permissions, he]
  constructor
  · rw [resolveFeesP_idem]
  · rw [resolveFeesP_idem]

theorem sendRequiresPayment_stable (senderKey : String) (msg : SendMessageBody)
    (recipients : List String) (d e : DB)
    (he : e.permissions = (resolveFeesP senderKey (trimSpace msg.messageBox) recipients
      (ensureBoxes (trimSpace msg.messageBox) recipients d).permissions).2)
    (hsf : e.serverFees = d.serverFees) :
    sendRequiresPayment senderKey msg recipients e =
      sendRequiresPayment senderKey msg recipients d := by
  unfold sendRequiresPayment sendDeliveryFee
  have hdf : GetServerDeliveryFee (trimSpace msg.messageBox)
      (ensureBoxes (trimSpace msg.messageBox) recipients e) =
      GetServerDeliveryFee (trimSpace msg.messageBox)
        (ensureBoxes (trimSpace msg.messageBox) recipients d) :=
    GetServerDeliveryFee_congr _ (by rw [ensureBoxes_serverFees, ensureBoxes_serverFees, hsf])
  rw [hdf, (sendFeeRows_stable senderKey msg recipients d e he).1]

theorem sendBlockedList_stable (senderKey : String) (msg : SendMessageBody)
    (recipients : List String) (d e : DB)
    (he : e.permissions = (resolveFeesP senderKey (trimSpace msg.messageBox) recipients
      (ensureBoxes (trimSpace msg.messageBox) recipients d).permissions).2) :
    sendBlockedList senderKey msg recipients e = sendBlockedList senderKey msg recipients d := by
  unfold sendBlockedList
  rw [(sendFeeRows_stable senderKey msg recipients d e he).1]

/-- What a successful admission reveals: no blocked recipient, the payment
gate passed, the results are the per-pair report, and the final state is
the store loop's state. -/
theorem sendMessageCore_success_inv (senderKey : String) (msg : SendMessageBody)
    (payment : String) (recipients messageIDs : List String) (d : DB)
    (results : List (String × String)) (d' : DB)
    (h : sendMessageCore senderKey msg payment recipients messageIDs d =
      (.success results, d')) :
    (sendBlockedList senderKey msg recipients d).length = 0 ∧
    (sendRequiresPayment senderKey msg recipients d && paymentMissing payment) = false ∧
    results = ((sendFeeRows senderKey msg recipients d).zip messageIDs).map
      (fun p => (p.1.recipient, p.2)) ∧
    d' = (sendStoreLoop senderKey msg payment recipients messageIDs d).2 := by
  rw [sendMessageCore_eq] at h
  split at h
  · exact absurd h (by simp)
  · split at h
    · exact absurd h (by simp)
    · next h1 h2 =>
      have hfst := congrArg Prod.fst h
      have hsnd := congrArg Prod.snd h
      simp only [] at hfst hsnd
      refine ⟨by omega, by simpa using h2, ?_, hsnd.symm⟩
      have := congrArg Prod.fst h
      simp only [] at this
      cases this
      unfold sendStoreLoop
      exact storeLoop_results _ _ _ _ _

/-- C4: re-issuing a send that just succeeded succeeds again with the very
same reported (recipient, messageId) pairs, while storing nothing new —
the message store is unchanged by the second call — and the send keeps
message ids unique (at most one stored message per id). -/
theorem C4_idempotent_resend (validKey : String → Bool) (senderKey : String)
    (req : SendMessageRequest) (d : DB) (results : List (String × String)) (d' : DB)
    (h : SendMessage validKey senderKey req d = (.success results, d')) :
    (SendMessage validKey senderKey req d').1 = .success results ∧
    (SendMessage validKey senderKey req d').2.messages = d'.messages ∧
    (∀ mid, countMsgId d mid ≤ 1 → countMsgId d' mid ≤ 1) := by
  unfold SendMessage at h ⊢
  cases hv : validateSend validKey senderKey req with
  | error e =>
    rw [hv] at h
    simp at h
  | ok v =>
    rw [hv] at h
    dsimp only at h ⊢
    obtain ⟨hbl0, hgate, hr, hd'⟩ :=
      sendMessageCore_success_inv senderKey v.msg req.payment v.recipients v.messageIDs
        d results d' h
    have hperm' : d'.permissions = (resolveFeesP senderKey (trimSpace v.msg.messageBox)
        v.recipients (ensureBoxes (trimSpace v.msg.messageBox) v.recipients d).permissions).2 := by
      rw [hd']
      exact sendStoreLoop_permissions _ _ _ _ _ _
    have hsf' : d'.serverFees = d.serverFees := by
      rw [hd']
      exact sendStoreLoop_serverFees _ _ _ _ _ _
    have hfr := sendFeeRows_stable senderKey v.msg v.recipients d d' hperm'
    have hrp := sendRequiresPayment_stable senderKey v.msg v.recipients d d' hperm' hsf'
    have hbl := sendBlockedList_stable senderKey v.msg v.recipients d d' hperm'
    have hblnil : sendBlockedList senderKey v.msg v.recipients d = [] :=
      List.length_eq_zero.mp hbl0
    have hpresent : ∀ pair ∈ (sendFeeRows senderKey v.msg v.recipients d).zip v.messageIDs,
        hasMsgId d' pair.2 = true := by
      intro pair hpair
      rw [hd']
      unfold sendStoreLoop
      exact storeLoop_hasMsgId_after _ _ _ _ _ pair hpair
    have hnoop : sendStoreLoop senderKey v.msg req.payment v.recipients v.messageIDs d' =
        (((sendFeeRows senderKey v.msg v.recipients d).zip v.messageIDs).map
          (fun p => (p.1.recipient, p.2)),
         sendMidDB senderKey v.msg v.recipients d') := by
      unfold sendStoreLoop
      rw [hfr.1]
      apply storeLoop_noop
      intro pair hpair
      rw [hasMsgId_congr (sendMidDB_messages senderKey v.msg v.recipients d') pair.2]
      exact hpresent pair hpair
    rw [sendMessageCore_eq, hbl, hblnil]
    simp only [List.length_nil, gt_iff_lt, lt_self_iff_false, if_false]
    rw [if_neg (by simp [hrp, hgate])]
    rw [hnoop]
    refine ⟨?_, ?_, ?_⟩
    · rw [hr]
    · exact sendMidDB_messages senderKey v.msg v.recipients d'
    · intro mid hm
      rw [hd']
      unfold sendStoreLoop
      apply storeLoop_countMsgId_le
      rw [countMsgId_congr (sendMidDB_messages senderKey v.msg v.recipients d) mid]
      exact hm

theorem C4_idempotent_resend_witness :
    (SendMessage (fun _ => true) "snd" reqC4
      (SendMessage (fun _ => true) "snd" reqC4 DB.empty).2).1 =
      SendResp.success [("alice", "m1")] ∧
    (SendMessage (fun _ => true) "snd" reqC4
      (SendMessage (fun _ => true) "snd" reqC4 DB.empty).2).2.messages =
      (SendMessage (fun _ => true) "snd" reqC4 DB.empty).2.messages := by
  have h := C4_idempotent_resend (fun _ => true) "snd" reqC4 DB.empty [("alice", "m1")]
    (SendMessage (fun _ => true) "snd" reqC4 DB.empty).2 (by decide)
  exact ⟨h.1, h.2.1⟩
